import Mathlib

set_option autoImplicit false

/-!
Verification of the brand vs non-brand analysis script
(`src/brand_vs_nonbrand_analysis.js`).

The script is embedded shallowly:
* JS numbers are modelled as exact rationals (`ℚ`); metric rows are records
  of rationals.
* JS objects used as string-keyed maps (`periodData`) are modelled as
  insertion-ordered association lists `List (String × PeriodBucket)`;
  `target[key] = v` on a missing key appends at the end, matching JS
  property-insertion order.
* Raw report fields are `RawField` (missing / non-numeric / numeric); the
  script's `Number(x) || 0` coercion is `jsNumberOr0`.
* The brand regular expression built by `buildBrandPatterns` is modelled by
  translating each token to the same restricted regex source text the script
  produces, parsing that text into atoms (literal character, optional
  separator class `[-_ ]?`, optional space ` ?`) and giving the atoms their
  regex semantics (case-insensitive substring match).  This is faithful for
  tokens made of letters, digits, hyphens, underscores and spaces (no regex
  metacharacters), which is the script's documented token shape.
* Calendar dates are modelled as proleptic-Gregorian (year, month, day)
  triples with an absolute day number; time zones are abstracted away
  (every JS `Date` in the script denotes a calendar day).
-/

namespace BrandAnalysis

/-! ### Metric vectors (`emptyMetrics`, the `+=` blocks) -/

@[ext]
structure Metrics where
  impressions : ℚ
  clicks : ℚ
  cost : ℚ
  conversions : ℚ
  conversionsValue : ℚ
deriving DecidableEq, Repr

/-- `emptyMetrics()` from the script: the all-zero metric vector. -/
def emptyMetrics : Metrics :=
  { impressions := 0, clicks := 0, cost := 0, conversions := 0, conversionsValue := 0 }

/-- The repeated `target.x += rowMetrics.x` blocks: component-wise addition. -/
def bumpMetrics (t m : Metrics) : Metrics :=
  { impressions := t.impressions + m.impressions
    clicks := t.clicks + m.clicks
    cost := t.cost + m.cost
    conversions := t.conversions + m.conversions
    conversionsValue := t.conversionsValue + m.conversionsValue }

theorem bumpMetrics_comm (a b c : Metrics) :
    bumpMetrics (bumpMetrics a b) c = bumpMetrics (bumpMetrics a c) b := by
  simp only [bumpMetrics]
  ext <;> ring

theorem bumpMetrics_assoc (a b c : Metrics) :
    bumpMetrics (bumpMetrics a b) c = bumpMetrics a (bumpMetrics b c) := by
  simp only [bumpMetrics]
  ext <;> ring

theorem bumpMetrics_empty (a : Metrics) : bumpMetrics emptyMetrics a = a := by
  simp only [bumpMetrics, emptyMetrics]
  ext <;> ring

/-! ### Raw field coercion (`Number(m.x) || 0`) -/

/-- A raw report field as seen by the row loop: absent (`undefined`),
present but not parsing to a number (`Number` gives `NaN`), or numeric. -/
inductive RawField where
  | missing
  | nonNumeric
  | num (q : ℚ)
deriving DecidableEq, Repr

/-- `Number(x) || 0`: `NaN` (from a missing or non-numeric field) and `0`
are falsy and replaced by `0`; any other number is kept unchanged. -/
def jsNumberOr0 : RawField → ℚ
  | .missing => 0
  | .nonNumeric => 0
  | .num q => q

structure RawMetrics where
  impressions : RawField
  clicks : RawField
  costMicros : RawField
  conversions : RawField
  conversionsValue : RawField
deriving DecidableEq, Repr

/-- The `rowMetrics` object built in `processSearchTermView` /
`processCampaignSearchTermView`: each field coerced with `Number(x) || 0`,
cost converted from micros (`cost / 1000000`). -/
def rowMetricsOf (m : RawMetrics) : Metrics :=
  { impressions := jsNumberOr0 m.impressions
    clicks := jsNumberOr0 m.clicks
    cost := jsNumberOr0 m.costMicros / 1000000
    conversions := jsNumberOr0 m.conversions
    conversionsValue := jsNumberOr0 m.conversionsValue }

/-! ### Brand matcher (`buildBrandPatterns`, `isBranded`) -/

/-- One atom of the restricted regex language the script generates:
a literal character, the optional separator class `[-_ ]?`, or an
optional space ` ?`. -/
inductive RAtom where
  | lit (c : Char)
  | optSep
  | optSpace
deriving DecidableEq, Repr

/-- The per-character effect of
`token.replace(/[- ]/g, '[-_ ]?').replace(/([0-9])/g, ' ?$1')`
on the regex source text. -/
def transformChar (c : Char) : List Char :=
  if c = '-' ∨ c = ' ' then ['[', '-', '_', ' ', ']', '?']
  else if c.isDigit then [' ', '?', c]
  else [c]

/-- The transformed regex source of one token. -/
def transformToken (t : List Char) : List Char :=
  (t.map transformChar).flatten

/-- `BRAND_TOKENS.map(transform).join('|')`: the full regex source text. -/
def regexSource (tokens : List (List Char)) : List Char :=
  List.intercalate ['|'] (tokens.map transformToken)

/-- Top-level alternation split of the regex source (the generated language
never contains `|` except as the separator inserted by `join('|')`).
An empty source yields the single empty alternative, exactly as
`new RegExp('')` does. -/
def splitBar : List Char → List (List Char)
  | [] => [[]]
  | '|' :: rest => [] :: splitBar rest
  | c :: rest =>
    match splitBar rest with
    | [] => [[c]]
    | a :: as => (c :: a) :: as

/-- Parse one alternative of the generated regex source into atoms. -/
def parseAtoms : List Char → List RAtom
  | '[' :: '-' :: '_' :: ' ' :: ']' :: '?' :: rest => .optSep :: parseAtoms rest
  | ' ' :: '?' :: rest => .optSpace :: parseAtoms rest
  | c :: rest => .lit c :: parseAtoms rest
  | [] => []

/-- A compiled pattern: the list of alternatives, each a list of atoms. -/
abbrev BrandPattern : Type := List (List RAtom)

/-- `buildBrandPatterns()`: the script compiles all tokens into one
case-insensitive regex and returns a one-element array of patterns. -/
def buildBrandPatterns (tokens : List String) : List BrandPattern :=
  [(splitBar (regexSource (tokens.map String.data))).map parseAtoms]

/-- Does a list of atoms match a prefix of `cs` (case-insensitively,
the `'i'` flag)? -/
def matchAtoms : List RAtom → List Char → Bool
  | [], _ => true
  | .lit _ :: _, [] => false
  | .lit c :: as, d :: ds => (c.toLower == d.toLower) && matchAtoms as ds
  | .optSep :: as, ds =>
    matchAtoms as ds ||
      (match ds with
       | d :: ds2 => (d == '-' || d == '_' || d == ' ') && matchAtoms as ds2
       | [] => false)
  | .optSpace :: as, ds =>
    matchAtoms as ds ||
      (match ds with
       | ' ' :: ds2 => matchAtoms as ds2
       | _ => false)

/-- Regex `test`: does some alternative match at some start position
(including the position at the end of the string)? -/
def testFrom (alts : List (List RAtom)) : List Char → Bool
  | [] => alts.any fun a => matchAtoms a []
  | c :: rest => (alts.any fun a => matchAtoms a (c :: rest)) || testFrom alts rest

/-- `pattern.test(text)` for a compiled pattern. -/
def patternTest (p : BrandPattern) (s : String) : Bool :=
  testFrom p s.data

/-- `isBranded(text)`: `false` on a missing / non-string / empty value
(all falsy), otherwise `BRAND_PATTERNS.some(p => p.test(text))`. -/
def isBranded (patterns : List BrandPattern) (text : Option String) : Bool :=
  match text with
  | none => false
  | some s => if s = "" then false else patterns.any fun p => patternTest p s

/-! ### Period buckets and period data -/

/-- One period's bucket.  JS objects built by `emptyPeriodData()` carry only
`branded` and `nonBranded`; the ones built by `emptyPeriodDataWithBlank()`
also carry `blank`.  The optional `blank` field records which shape the
object has. -/
@[ext]
structure PeriodBucket where
  branded : Metrics
  nonBranded : Metrics
  blank : Option Metrics
deriving DecidableEq, Repr

/-- `emptyPeriodData()`: zero bucket without a `blank` key. -/
def emptyPeriodData : PeriodBucket :=
  { branded := emptyMetrics, nonBranded := emptyMetrics, blank := none }

/-- `emptyPeriodDataWithBlank()`: zero bucket with a zero `blank` key. -/
def emptyPeriodDataWithBlank : PeriodBucket :=
  { branded := emptyMetrics, nonBranded := emptyMetrics, blank := some emptyMetrics }

/-- `periodData` objects: string-keyed maps in insertion order. -/
abbrev PeriodData : Type := List (String × PeriodBucket)

/-- Property read `periodData[key]`. -/
def getPD : PeriodData → String → Option PeriodBucket
  | [], _ => none
  | (k2, b) :: rest, k => if k2 = k then some b else getPD rest k

/-- Property write `periodData[key] = b`: replace in place if the key
exists, append at the end otherwise (JS property-insertion order). -/
def setPD : PeriodData → String → PeriodBucket → PeriodData
  | [], k, b => [(k, b)]
  | (k2, b2) :: rest, k, b =>
    if k2 = k then (k2, b) :: rest else (k2, b2) :: setPD rest k b

/-- The keys of a `periodData` object. -/
def keysPD (pd : PeriodData) : List String := pd.map Prod.fst

/-- The `target.x += rowMetrics.x` block of `addRowToPeriodData`: bump the
`branded` or `nonBranded` component of a bucket. -/
def rowBucket (bucket : PeriodBucket) (isBrandedRow : Bool) (rowMetrics : Metrics) :
    PeriodBucket :=
  if isBrandedRow then { bucket with branded := bumpMetrics bucket.branded rowMetrics }
  else { bucket with nonBranded := bumpMetrics bucket.nonBranded rowMetrics }

/-- `addRowToPeriodData(periodData, periodKey, isBrandedRow, rowMetrics)`:
get-or-insert a zero bucket, then `+=` the row metrics into the `branded`
or `nonBranded` component. -/
def addRowToPeriodData (pd : PeriodData) (periodKey : String) (isBrandedRow : Bool)
    (rowMetrics : Metrics) : PeriodData :=
  setPD pd periodKey
    (rowBucket ((getPD pd periodKey).getD emptyPeriodData) isBrandedRow rowMetrics)

/-- The three classification slots of the category-insight source. -/
inductive Category where
  | branded
  | nonBranded
  | blank
deriving DecidableEq, Repr

/-- The `target.x += rowMetrics.x` block of
`addRowToPeriodDataWithBlank`, on the component named by `category`. -/
def bumpBucketCategory (b : PeriodBucket) (category : Category) (m : Metrics) : PeriodBucket :=
  match category with
  | .branded => { b with branded := bumpMetrics b.branded m }
  | .nonBranded => { b with nonBranded := bumpMetrics b.nonBranded m }
  | .blank => { b with blank := some (bumpMetrics (b.blank.getD emptyMetrics) m) }

/-- `addRowToPeriodDataWithBlank(periodData, periodKey, category, rowMetrics)`. -/
def addRowToPeriodDataWithBlank (pd : PeriodData) (periodKey : String)
    (category : Category) (rowMetrics : Metrics) : PeriodData :=
  setPD pd periodKey
    (bumpBucketCategory ((getPD pd periodKey).getD emptyPeriodDataWithBlank) category rowMetrics)

/-! ### Totals and the merge operations -/

/-- A `totals` object: `{ branded, nonBranded }`, with `blank` present only
for the category-insight source. -/
@[ext]
structure Totals where
  branded : Metrics
  nonBranded : Metrics
  blank : Option Metrics
deriving DecidableEq, Repr

/-- `mergeTotals(target, source)` (pure form): adds the `branded` and
`nonBranded` components of `source` into `target`; no other component is
read or written. -/
def mergeTotals (target source : Totals) : Totals :=
  { branded := bumpMetrics target.branded source.branded
    nonBranded := bumpMetrics target.nonBranded source.nonBranded
    blank := target.blank }

/-- The ten `target[key].x += source[key].x` lines of `mergePeriodData`:
adds the `branded` / `nonBranded` components of `sb` into `tb`. -/
def mergeBucket (tb sb : PeriodBucket) : PeriodBucket :=
  { tb with
    branded := bumpMetrics tb.branded sb.branded
    nonBranded := bumpMetrics tb.nonBranded sb.nonBranded }

/-- One iteration of `mergePeriodData`'s `for (key in source)` loop. -/
def mergePeriodDataStep (t : PeriodData) (kv : String × PeriodBucket) : PeriodData :=
  setPD t kv.1 (mergeBucket ((getPD t kv.1).getD emptyPeriodData) kv.2)

/-- `mergePeriodData(target, source)` (pure form): for each source key in
order, zero-initialise the target bucket if absent, then add the source
bucket's `branded` / `nonBranded` components. -/
def mergePeriodData (target source : PeriodData) : PeriodData :=
  source.foldl mergePeriodDataStep target

/-! ### Row classifiers -/

/-- Per-run time granularity (`TIME_GRANULARITY`). -/
inductive Granularity where
  | month
  | week
deriving DecidableEq, Repr

/-- A channel's accumulated result `{ totals, periodData }`. -/
structure ChannelResult where
  totals : Totals
  periodData : PeriodData

/-- The accumulator initialisation of `processSearchTermView` /
`processCampaignSearchTermView` (no `blank` key in totals). -/
def initSearchResult : ChannelResult :=
  { totals := { branded := emptyMetrics, nonBranded := emptyMetrics, blank := none }
    periodData := [] }

/-- Totals update of the search-term loops: `+=` into `totals.branded` or
`totals.nonBranded` depending on the classification. -/
def bumpTotals (t : Totals) (branded : Bool) (m : Metrics) : Totals :=
  if branded then { t with branded := bumpMetrics t.branded m }
  else { t with nonBranded := bumpMetrics t.nonBranded m }

/-- One `search_term_view` row as the loop reads it. -/
structure StvRow where
  searchTerm : Option String
  segWeek : Option String
  segMonth : Option String
  metrics : RawMetrics
deriving DecidableEq, Repr

/-- `TIME_GRANULARITY === 'week' ? row.segments.week : row.segments.month`
(a missing or empty segment is falsy and makes the loop skip the row). -/
def stvPeriodKey (g : Granularity) (r : StvRow) : Option String :=
  match g with
  | .week => r.segWeek
  | .month => r.segMonth

/-- One iteration of the `processSearchTermView` row loop. -/
def processStvRow (patterns : List BrandPattern) (g : Granularity)
    (st : ChannelResult) (r : StvRow) : ChannelResult :=
  let text := r.searchTerm.getD ""
  let rowMetrics := rowMetricsOf r.metrics
  match stvPeriodKey g r with
  | none => st
  | some key =>
    if key = "" then st
    else
      let branded := isBranded patterns (some text)
      { totals := bumpTotals st.totals branded rowMetrics
        periodData := addRowToPeriodData st.periodData key branded rowMetrics }

/-- `processSearchTermView(channelType)`, abstracted over the decoded row
stream returned by the report query. -/
def processSearchTermView (patterns : List BrandPattern) (g : Granularity)
    (rows : List StvRow) : ChannelResult :=
  rows.foldl (processStvRow patterns g) initSearchResult

/-- The `segments` object of a `campaign_search_term_view` row: the
targeting status may be exposed under its camel-case or snake-case name. -/
structure PmaxSegments where
  searchTermTargetingStatus : Option String
  searchTermTargetingStatusSnake : Option String
  week : Option String
  month : Option String
deriving DecidableEq, Repr

/-- One `campaign_search_term_view` row. -/
structure PmaxRow where
  searchTerm : Option String
  segments : Option PmaxSegments
  metrics : RawMetrics
deriving DecidableEq, Repr

/-- The raw targeting-status value the script reads
(`segments.searchTermTargetingStatus !== undefined ? ... :
segments.search_term_targeting_status`). -/
def rawTargetingStatus (segments : Option PmaxSegments) : Option String :=
  match segments with
  | none => none
  | some seg =>
    match seg.searchTermTargetingStatus with
    | some v => some v
    | none => seg.searchTermTargetingStatusSnake

/-- JS `String.prototype.toUpperCase()` (ASCII range, as the status enum
strings require). -/
def jsToUpper (s : String) : String := String.mk (s.data.map Char.toUpper)

/-- `isExcludedTargetingStatus(segments)` from the script. -/
def isExcludedTargetingStatus (segments : Option PmaxSegments) : Bool :=
  match rawTargetingStatus segments with
  | none => false
  | some raw =>
    let s := jsToUpper raw
    s = "EXCLUDED" || s = "ADDED_EXCLUDED"

/-- Period key of a Pmax row (`row.segments && row.segments.week` etc.). -/
def pmaxPeriodKey (g : Granularity) (r : PmaxRow) : Option String :=
  match r.segments with
  | none => none
  | some seg =>
    match g with
    | .week => seg.week
    | .month => seg.month

/-- One iteration of the `processCampaignSearchTermView` row loop.
`treatAllAsNonBranded` is the `PMAX_TREAT_ALL_AS_NON_BRANDED` flag. -/
def processPmaxRow (treatAllAsNonBranded : Bool) (patterns : List BrandPattern)
    (g : Granularity) (st : ChannelResult) (r : PmaxRow) : ChannelResult :=
  if isExcludedTargetingStatus r.segments then st
  else
    let text := r.searchTerm.getD ""
    let rowMetrics := rowMetricsOf r.metrics
    match pmaxPeriodKey g r with
    | none => st
    | some key =>
      if key = "" then st
      else
        let branded := if treatAllAsNonBranded then false else isBranded patterns (some text)
        { totals := bumpTotals st.totals branded rowMetrics
          periodData := addRowToPeriodData st.periodData key branded rowMetrics }

/-- `processCampaignSearchTermView()`, abstracted over the decoded rows. -/
def processCampaignSearchTermView (treatAllAsNonBranded : Bool)
    (patterns : List BrandPattern) (g : Granularity) (rows : List PmaxRow) : ChannelResult :=
  rows.foldl (processPmaxRow treatAllAsNonBranded patterns g) initSearchResult

/-! ### Category-insight classifier (`processCampaignSearchTermInsight`) -/

/-- JS `String.prototype.trim()`: strip leading and trailing whitespace. -/
def jsTrim (s : String) : String :=
  String.mk (((s.data.dropWhile Char.isWhitespace).reverse.dropWhile
    Char.isWhitespace).reverse)

/-- The category decision of the insight row loop:
`!categoryLabel || categoryLabel.trim() === ''` ⇒ blank, else branded if
`isBranded(categoryLabel)`, else non-branded. -/
def categoryOfLabel (patterns : List BrandPattern) (label : String) : Category :=
  if label = "" ∨ jsTrim label = "" then .blank
  else if isBranded patterns (some label) then .branded
  else .nonBranded

/-- Raw metric fields of a `campaign_search_term_insight` row (the query
selects no cost field). -/
structure InsightRawMetrics where
  impressions : RawField
  clicks : RawField
  conversions : RawField
  conversionsValue : RawField
deriving DecidableEq, Repr

/-- The `rowMetrics` of the insight loop: cost hard-fixed at `0`. -/
def insightMetricsOf (m : InsightRawMetrics) : Metrics :=
  { impressions := jsNumberOr0 m.impressions
    clicks := jsNumberOr0 m.clicks
    cost := 0
    conversions := jsNumberOr0 m.conversions
    conversionsValue := jsNumberOr0 m.conversionsValue }

/-- `+=` of the four cost-free fields (the insight totals update touches
`impressions`, `clicks`, `conversions`, `conversionsValue` only). -/
def bumpMetricsNoCost (t m : Metrics) : Metrics :=
  { impressions := t.impressions + m.impressions
    clicks := t.clicks + m.clicks
    cost := t.cost
    conversions := t.conversions + m.conversions
    conversionsValue := t.conversionsValue + m.conversionsValue }

/-- `totals[category].x += rowMetrics.x` of the insight loop (no cost). -/
def bumpTotalsCategory (t : Totals) (category : Category) (m : Metrics) : Totals :=
  match category with
  | .branded => { t with branded := bumpMetricsNoCost t.branded m }
  | .nonBranded => { t with nonBranded := bumpMetricsNoCost t.nonBranded m }
  | .blank => { t with blank := some (bumpMetricsNoCost (t.blank.getD emptyMetrics) m) }

/-- The accumulator initialisation of `processCampaignSearchTermInsight`
(totals do carry a `blank` component). -/
def initInsightResult : ChannelResult :=
  { totals := { branded := emptyMetrics, nonBranded := emptyMetrics, blank := some emptyMetrics }
    periodData := [] }

/-- One `campaign_search_term_insight` row. -/
structure InsightRow where
  categoryLabel : Option String
  metrics : InsightRawMetrics
deriving DecidableEq, Repr

/-- One iteration of the insight row loop, for the enumerated period with
key `periodKey`. -/
def processInsightRow (patterns : List BrandPattern) (periodKey : String)
    (st : ChannelResult) (r : InsightRow) : ChannelResult :=
  let label := r.categoryLabel.getD ""
  let rowMetrics := insightMetricsOf r.metrics
  let category := categoryOfLabel patterns label
  { totals := bumpTotalsCategory st.totals category rowMetrics
    periodData := addRowToPeriodDataWithBlank st.periodData periodKey category rowMetrics }

/-! ### Derived ratios (`buildRawTabRows`, `buildChartDataRows`) -/

/-- The CPA expression of `buildRawTabRows` / `buildChartDataRows`:
`p.x.conversions > 0 ? p.x.cost / p.x.conversions : 0`. -/
def cpaOf (m : Metrics) : ℚ :=
  if m.conversions > 0 then m.cost / m.conversions else 0

/-- The ROAS expression of `buildRawTabRows` / `buildChartDataRows`:
`p.x.cost > 0 ? p.x.conversionsValue / p.x.cost : 0`. -/
def roasOf (m : Metrics) : ℚ :=
  if m.cost > 0 then m.conversionsValue / m.cost else 0

/-! ### `getSheetId` and the order of effects in `main` -/

/-- One character of the regex class `[a-zA-Z0-9-_]`. -/
def idChar (c : Char) : Bool :=
  (('a' ≤ c ∧ c ≤ 'z') ∨ ('A' ≤ c ∧ c ≤ 'Z') ∨ ('0' ≤ c ∧ c ≤ '9') : Prop) ||
    c == '-' || c == '_'

/-- Try to match `/\/d\/([a-zA-Z0-9-_]+)/` at the start of the list,
returning the capture group. -/
def matchDSlash : List Char → Option (List Char)
  | '/' :: 'd' :: '/' :: after =>
    let cap := after.takeWhile idChar
    if cap.isEmpty then none else some cap
  | _ => none

/-- `string.match(/\/d\/([a-zA-Z0-9-_]+)/)`: try every start position in
order and return the first capture. -/
def findSheetIdCapture : List Char → Option (List Char)
  | [] => none
  | c :: rest =>
    match matchDSlash (c :: rest) with
    | some cap => some cap
    | none => findSheetIdCapture rest

/-- `getSheetId(sheetIdentifier)`: a falsy or slash-free identifier is
returned unchanged; otherwise the `/d/<id>` capture is extracted, and a
failed match throws `Error('Invalid Google Sheet URL or ID format')`
(modelled as `none`). -/
def getSheetId (sheetIdentifier : String) : Option String :=
  if sheetIdentifier = "" ∨ ¬ sheetIdentifier.data.any (fun c => c == '/') then
    some sheetIdentifier
  else
    match findSheetIdCapture sheetIdentifier.data with
    | some cap => some (String.mk cap)
    | none => none

/-- Externally visible effects of `main()`, in program order. -/
inductive MainEvent where
  | reportQuery (source : String)
  | openSpreadsheet (sheetId : String)
  | writeOutput
deriving DecidableEq, Repr

/-- The effect trace of `main()` together with a flag saying whether the
run ended in the catch-and-rethrow path (an aborted run).  `main` issues
all report queries first (`processSearchTermView('SEARCH')`,
`processSearchTermView('SHOPPING')`, `processCampaignSearchTermView()`, and
`processCampaignSearchTermInsight()` when `INCLUDE_PMAX_CATEGORIES`), and
only then calls `getSheetId(SHEET_URL)`; a `getSheetId` throw is logged and
re-raised, so no spreadsheet is opened or written. -/
def mainEvents (sheetUrl : String) (includePmaxCategories : Bool) :
    List MainEvent × Bool :=
  let fetches :=
    [MainEvent.reportQuery "search_term_view:SEARCH",
     MainEvent.reportQuery "search_term_view:SHOPPING",
     MainEvent.reportQuery "campaign_search_term_view:PERFORMANCE_MAX"] ++
      (if includePmaxCategories then
        [MainEvent.reportQuery "campaign_search_term_insight"]
      else [])
  match getSheetId sheetUrl with
  | none => (fetches, true)
  | some sheetId =>
    (fetches ++ [MainEvent.openSpreadsheet sheetId, MainEvent.writeOutput], false)

/-! ### Calendar model -/

/-- Gregorian leap year. -/
def isLeap (y : Nat) : Bool :=
  (y % 4 == 0 && y % 100 != 0) || y % 400 == 0

/-- Days in a calendar month (`new Date(y, m + 1, 0)` day-of-month). -/
def daysInMonth (y m : Nat) : Nat :=
  if m = 2 then (if isLeap y then 29 else 28)
  else if m = 4 ∨ m = 6 ∨ m = 9 ∨ m = 11 then 30
  else 31

def daysInYear (y : Nat) : Nat := if isLeap y then 366 else 365

/-- Days in the months of year `y` strictly before month `m`. -/
def daysBeforeMonth (y : Nat) : Nat → Nat
  | 0 => 0
  | 1 => 0
  | m + 1 => daysBeforeMonth y m + daysInMonth y m

/-- Days in the years strictly before year `y` (closed form of the number
of leap years below `y` in the proleptic Gregorian calendar). -/
def daysBeforeYear (y : Nat) : Nat :=
  365 * y + (y + 3) / 4 - (y + 99) / 100 + (y + 399) / 400

/-- A calendar date. -/
structure Date where
  year : Nat
  month : Nat
  day : Nat
deriving DecidableEq, Repr

def Date.Valid (d : Date) : Prop :=
  1 ≤ d.month ∧ d.month ≤ 12 ∧ 1 ≤ d.day ∧ d.day ≤ daysInMonth d.year d.month

instance (d : Date) : Decidable d.Valid := by
  unfold Date.Valid
  infer_instance

/-- Absolute day number of a date.  JS `Date` comparison and day
arithmetic are modelled on these numbers. -/
def toDayNo (d : Date) : Nat :=
  daysBeforeYear d.year + daysBeforeMonth d.year d.month + d.day

/-! ### `getPeriodRanges` (monthly branch) -/

def monthIdx (p : Nat × Nat) : Nat := 12 * p.1 + p.2

/-- `current.setMonth(current.getMonth() + 1)` on a first-of-month date. -/
def nextMonth (p : Nat × Nat) : Nat × Nat :=
  if p.2 = 12 then (p.1 + 1, 1) else (p.1, p.2 + 1)

def firstOfMonth (p : Nat × Nat) : Date := ⟨p.1, p.2, 1⟩

def lastOfMonth (p : Nat × Nat) : Date := ⟨p.1, p.2, daysInMonth p.1 p.2⟩

/-- `monthStart < startDate ? startDate : monthStart`. -/
def maxDate (a b : Date) : Date := if toDayNo a < toDayNo b then b else a

/-- `monthEnd > endDate ? endDate : monthEnd`. -/
def minDate (a b : Date) : Date := if toDayNo b < toDayNo a then b else a

theorem daysInMonth_ge (y m : Nat) : 28 ≤ daysInMonth y m := by
  unfold daysInMonth
  split
  · split <;> omega
  · split <;> omega

theorem daysInMonth_le (y m : Nat) : daysInMonth y m ≤ 31 := by
  unfold daysInMonth
  split
  · split <;> omega
  · split <;> omega

theorem daysBeforeMonth_ge (y : Nat) : ∀ m, m ≤ daysBeforeMonth y m + 1
  | 0 => by simp [daysBeforeMonth]
  | 1 => by simp [daysBeforeMonth]
  | m + 2 => by
    have h1 := daysBeforeMonth_ge y (m + 1)
    have h2 := daysInMonth_ge y (m + 1)
    have : daysBeforeMonth y (m + 2) = daysBeforeMonth y (m + 1) + daysInMonth y (m + 1) := rfl
    omega

theorem daysBeforeYear_ge (y : Nat) : 365 * y ≤ daysBeforeYear y := by
  unfold daysBeforeYear
  omega

theorem monthIdx_le_toDayNo_first (p : Nat × Nat) :
    monthIdx p ≤ toDayNo (firstOfMonth p) := by
  have h1 := daysBeforeMonth_ge p.1 p.2
  have h2 := daysBeforeYear_ge p.1
  unfold monthIdx toDayNo firstOfMonth
  simp only
  omega

theorem monthIdx_nextMonth (p : Nat × Nat) :
    monthIdx (nextMonth p) = monthIdx p + 1 := by
  unfold nextMonth monthIdx
  split <;> simp_all <;> omega

/-- The `while (current <= endDate)` loop of `getPeriodRanges` for
`TIME_GRANULARITY !== 'week'`: one window per month, start clipped to
`startDate`, end clipped to `endDate`. -/
def monthLoop (startDate endDate : Date) (cur : Nat × Nat) : List (Date × Date) :=
  if toDayNo (firstOfMonth cur) ≤ toDayNo endDate then
    (maxDate (firstOfMonth cur) startDate, minDate (lastOfMonth cur) endDate)
      :: monthLoop startDate endDate (nextMonth cur)
  else []
termination_by toDayNo endDate + 1 - monthIdx cur
decreasing_by
  have h1 := monthIdx_le_toDayNo_first cur
  rw [monthIdx_nextMonth]
  omega

/-- `getPeriodRanges()` in the monthly branch: the loop starts at
`new Date(startDate.getFullYear(), startDate.getMonth(), 1)`. -/
def getPeriodRangesMonth (startDate endDate : Date) : List (Date × Date) :=
  monthLoop startDate endDate (startDate.year, startDate.month)

/-! ### `getPeriodRanges` (weekly branch) -/

/-- JS `getDay()` (0 = Sunday … 6 = Saturday) on absolute day numbers.
The offset is fixed by known weekdays (see `jsDayOfWeek_monday_anchor`). -/
def jsDayOfWeek (n : Int) : Int := (n + 5) % 7

/-- The weekly branch's move to Monday:
`diff = dayOfWeek === 0 ? -6 : 1 - dayOfWeek; current.setDate(current.getDate() + diff)`. -/
def mondayOnOrBefore (n : Int) : Int :=
  n + (if jsDayOfWeek n = 0 then -6 else 1 - jsDayOfWeek n)

/-- The `while (current <= endDate)` loop of the weekly branch: 7-day
windows, the end clipped to `endDate`. -/
def weekLoop (endN : Int) (cur : Int) : List (Int × Int) :=
  if cur ≤ endN then (cur, min (cur + 6) endN) :: weekLoop endN (cur + 7) else []
termination_by (endN + 1 - cur).toNat
decreasing_by omega

/-- `getPeriodRanges()` in the weekly branch, on absolute day numbers. -/
def getPeriodRangesWeek (startN endN : Int) : List (Int × Int) :=
  weekLoop endN (mondayOnOrBefore startN)

/-! ### Association-list lemmas for `periodData` objects -/

theorem getPD_setPD (pd : PeriodData) (k : String) (b : PeriodBucket) (k2 : String) :
    getPD (setPD pd k b) k2 = if k = k2 then some b else getPD pd k2 := by
  induction pd with
  | nil => simp [setPD, getPD]
  | cons hd tl ih =>
    obtain ⟨hk, hb⟩ := hd
    by_cases h1 : hk = k
    · subst h1
      by_cases h2 : hk = k2 <;> simp [setPD, getPD, h2]
    · by_cases h2 : hk = k2
      · subst h2
        have h3 : ¬(k = hk) := fun hh => h1 hh.symm
        simp [setPD, getPD, h1, h3]
      · simp [setPD, getPD, h1, h2, ih]

theorem keysPD_cons (kv : String × PeriodBucket) (pd : PeriodData) :
    keysPD (kv :: pd) = kv.1 :: keysPD pd := rfl

theorem getPD_eq_none_iff (pd : PeriodData) (k : String) :
    getPD pd k = none ↔ k ∉ keysPD pd := by
  induction pd with
  | nil => simp [getPD, keysPD]
  | cons hd tl ih =>
    obtain ⟨hk, hb⟩ := hd
    rw [keysPD_cons, List.mem_cons]
    by_cases h : hk = k
    · subst h
      simp [getPD]
    · have hs : ¬(k = hk) := fun hh => h hh.symm
      simp [getPD, h, hs, ih]

theorem keysPD_setPD (pd : PeriodData) (k : String) (b : PeriodBucket) :
    keysPD (setPD pd k b) =
      if k ∈ keysPD pd then keysPD pd else keysPD pd ++ [k] := by
  induction pd with
  | nil => simp [setPD, keysPD]
  | cons hd tl ih =>
    obtain ⟨hk, hb⟩ := hd
    by_cases h1 : hk = k
    · subst h1
      simp [setPD, keysPD]
    · have h1s : ¬(k = hk) := fun hh => h1 hh.symm
      simp only [setPD, if_neg h1, keysPD_cons, List.mem_cons]
      rw [ih]
      by_cases h2 : k ∈ keysPD tl <;> simp [h2, h1s]

theorem keysPD_setPD_nodup (pd : PeriodData) (k : String) (b : PeriodBucket)
    (h : (keysPD pd).Nodup) : (keysPD (setPD pd k b)).Nodup := by
  rw [keysPD_setPD]
  split
  · exact h
  · next hk =>
    refine List.Nodup.append h (List.nodup_singleton k) ?_
    simpa [List.disjoint_singleton] using hk

theorem mem_keysPD_setPD_of_mem (pd : PeriodData) (k : String) (b : PeriodBucket)
    (k2 : String) (h : k2 ∈ keysPD pd) : k2 ∈ keysPD (setPD pd k b) := by
  rw [keysPD_setPD]
  split
  · exact h
  · exact List.mem_append_left _ h

theorem self_mem_keysPD_setPD (pd : PeriodData) (k : String) (b : PeriodBucket) :
    k ∈ keysPD (setPD pd k b) := by
  rw [keysPD_setPD]
  split
  · assumption
  · simp

/-! ### Characterisation of `mergePeriodData` -/

theorem getPD_mergePeriodDataStep (t : PeriodData) (kv : String × PeriodBucket)
    (k : String) :
    getPD (mergePeriodDataStep t kv) k =
      if kv.1 = k then some (mergeBucket ((getPD t kv.1).getD emptyPeriodData) kv.2)
      else getPD t k := by
  unfold mergePeriodDataStep
  exact getPD_setPD t kv.1 _ k

theorem getPD_mergePeriodData_frame (s : PeriodData) (t : PeriodData) (k : String)
    (h : k ∉ keysPD s) : getPD (mergePeriodData t s) k = getPD t k := by
  induction s generalizing t with
  | nil => rfl
  | cons kv s ih =>
    rw [keysPD_cons, List.mem_cons] at h
    push_neg at h
    have hk : ¬(kv.1 = k) := fun hh => h.1 hh.symm
    simp only [mergePeriodData, List.foldl_cons] at *
    rw [ih _ h.2, getPD_mergePeriodDataStep]
    simp [hk]

theorem mem_keysPD_mergePeriodData_left (s : PeriodData) (t : PeriodData) (k : String)
    (h : k ∈ keysPD t) : k ∈ keysPD (mergePeriodData t s) := by
  induction s generalizing t with
  | nil => exact h
  | cons kv s ih =>
    simp only [mergePeriodData, List.foldl_cons] at *
    exact ih _ (mem_keysPD_setPD_of_mem _ _ _ _ h)

theorem mem_keysPD_mergePeriodData_right (s : PeriodData) (t : PeriodData) (k : String)
    (h : k ∈ keysPD s) : k ∈ keysPD (mergePeriodData t s) := by
  induction s generalizing t with
  | nil => simp [keysPD] at h
  | cons kv s ih =>
    simp only [keysPD, List.map_cons, List.mem_cons] at h
    simp only [mergePeriodData, List.foldl_cons]
    rcases h with h | h
    · subst h
      exact mem_keysPD_mergePeriodData_left s _ _ (self_mem_keysPD_setPD _ _ _)
    · exact ih _ h

theorem getPD_mergePeriodData (s : PeriodData) (t : PeriodData)
    (hs : (keysPD s).Nodup) (k : String) :
    getPD (mergePeriodData t s) k =
      match getPD s k with
      | none => getPD t k
      | some sb => some (mergeBucket ((getPD t k).getD emptyPeriodData) sb) := by
  induction s generalizing t with
  | nil => simp [mergePeriodData, getPD]
  | cons kv s ih =>
    obtain ⟨k0, b0⟩ := kv
    have hnd : k0 ∉ keysPD s ∧ (keysPD s).Nodup := by
      simpa [keysPD] using hs
    by_cases h : k0 = k
    · subst h
      simp only [mergePeriodData, List.foldl_cons]
      have hframe := getPD_mergePeriodData_frame s (mergePeriodDataStep t (k0, b0)) k0 hnd.1
      simp only [mergePeriodData] at hframe
      rw [hframe, getPD_mergePeriodDataStep]
      simp [getPD]
    · simp only [mergePeriodData, List.foldl_cons]
      have := ih (mergePeriodDataStep t (k0, b0)) hnd.2
      simp only [mergePeriodData] at this
      rw [this, getPD_mergePeriodDataStep]
      simp only [h, if_false]
      have hsk : getPD ((k0, b0) :: s) k = getPD s k := by simp [getPD, h]
      rw [hsk]

/-! ### Bucket and totals algebra -/

theorem bumpMetrics_empty_right (a : Metrics) : bumpMetrics a emptyMetrics = a := by
  simp only [bumpMetrics, emptyMetrics]
  ext <;> ring

theorem rowBucket_blank (b : PeriodBucket) (f : Bool) (m : Metrics) :
    (rowBucket b f m).blank = b.blank := by
  unfold rowBucket
  split <;> rfl

theorem mergeBucket_blank (tb sb : PeriodBucket) :
    (mergeBucket tb sb).blank = tb.blank := rfl

theorem mergeBucket_rowBucket (x y : PeriodBucket) (f : Bool) (m : Metrics) :
    mergeBucket x (rowBucket y f m) = rowBucket (mergeBucket x y) f m := by
  cases f <;>
    simp only [rowBucket, mergeBucket, Bool.false_eq_true, if_false, if_true] <;>
    rw [← bumpMetrics_assoc]

theorem mergeBucket_empty_right (x : PeriodBucket) :
    mergeBucket x emptyPeriodData = x := by
  simp only [mergeBucket, emptyPeriodData, emptyMetrics]
  ext <;> simp [bumpMetrics]

theorem rowBucket_swap (b : PeriodBucket) (f1 f2 : Bool) (m1 m2 : Metrics) :
    rowBucket (rowBucket b f1 m1) f2 m2 = rowBucket (rowBucket b f2 m2) f1 m1 := by
  cases f1 <;> cases f2 <;>
    simp only [rowBucket, Bool.false_eq_true, if_false, if_true] <;>
    rw [bumpMetrics_comm]

theorem bumpTotals_blank (t : Totals) (f : Bool) (m : Metrics) :
    (bumpTotals t f m).blank = t.blank := by
  unfold bumpTotals
  split <;> rfl

theorem mergeTotals_bumpTotals (a b : Totals) (f : Bool) (m : Metrics) :
    mergeTotals a (bumpTotals b f m) = bumpTotals (mergeTotals a b) f m := by
  cases f <;>
    simp only [bumpTotals, mergeTotals, Bool.false_eq_true, if_false, if_true] <;>
    rw [← bumpMetrics_assoc]

theorem bumpTotals_swap (t : Totals) (f1 f2 : Bool) (m1 m2 : Metrics) :
    bumpTotals (bumpTotals t f1 m1) f2 m2 = bumpTotals (bumpTotals t f2 m2) f1 m1 := by
  cases f1 <;> cases f2 <;>
    simp only [bumpTotals, Bool.false_eq_true, if_false, if_true] <;>
    rw [bumpMetrics_comm]

theorem mergeTotals_init_right (a : Totals) :
    mergeTotals a { branded := emptyMetrics, nonBranded := emptyMetrics, blank := none } = a := by
  simp only [mergeTotals, bumpMetrics_empty_right]

theorem getPD_addRowToPeriodData (pd : PeriodData) (periodKey : String) (f : Bool)
    (m : Metrics) (k : String) :
    getPD (addRowToPeriodData pd periodKey f m) k =
      if periodKey = k then
        some (rowBucket ((getPD pd periodKey).getD emptyPeriodData) f m)
      else getPD pd k := by
  unfold addRowToPeriodData
  exact getPD_setPD pd periodKey _ k

theorem getPD_addRowToPeriodDataWithBlank (pd : PeriodData) (periodKey : String)
    (category : Category) (m : Metrics) (k : String) :
    getPD (addRowToPeriodDataWithBlank pd periodKey category m) k =
      if periodKey = k then
        some (bumpBucketCategory ((getPD pd periodKey).getD emptyPeriodDataWithBlank)
          category m)
      else getPD pd k := by
  unfold addRowToPeriodDataWithBlank
  exact getPD_setPD pd periodKey _ k

/-! ### Observational equivalence of channel results

Two `periodData` objects are compared as key-to-bucket maps, two channel
results by their totals and their `periodData` maps. -/

def PdEquiv (pd1 pd2 : PeriodData) : Prop := ∀ k, getPD pd1 k = getPD pd2 k

def ResEquiv (a b : ChannelResult) : Prop :=
  a.totals = b.totals ∧ PdEquiv a.periodData b.periodData

theorem ResEquiv.refl (a : ChannelResult) : ResEquiv a a :=
  ⟨rfl, fun _ => rfl⟩

theorem ResEquiv.trans {a b c : ChannelResult} (h1 : ResEquiv a b) (h2 : ResEquiv b c) :
    ResEquiv a c :=
  ⟨h1.1.trans h2.1, fun k => (h1.2 k).trans (h2.2 k)⟩

theorem ResEquiv.symm {a b : ChannelResult} (h : ResEquiv a b) : ResEquiv b a :=
  ⟨h.1.symm, fun k => (h.2 k).symm⟩

theorem pdEquiv_addRow {pd1 pd2 : PeriodData} (h : PdEquiv pd1 pd2)
    (periodKey : String) (f : Bool) (m : Metrics) :
    PdEquiv (addRowToPeriodData pd1 periodKey f m)
      (addRowToPeriodData pd2 periodKey f m) := by
  intro k
  rw [getPD_addRowToPeriodData, getPD_addRowToPeriodData, h periodKey, h k]

theorem resEquiv_stvStep (patterns : List BrandPattern) (g : Granularity)
    {a b : ChannelResult} (h : ResEquiv a b) (r : StvRow) :
    ResEquiv (processStvRow patterns g a r) (processStvRow patterns g b r) := by
  unfold processStvRow
  cases stvPeriodKey g r with
  | none => exact h
  | some key =>
    by_cases hk : key = ""
    · simpa [hk] using h
    · simp only [hk, if_false]
      exact ⟨by rw [h.1], pdEquiv_addRow h.2 _ _ _⟩

theorem resEquiv_stvFoldl (patterns : List BrandPattern) (g : Granularity)
    (rows : List StvRow) {a b : ChannelResult} (h : ResEquiv a b) :
    ResEquiv (rows.foldl (processStvRow patterns g) a)
      (rows.foldl (processStvRow patterns g) b) := by
  induction rows generalizing a b with
  | nil => exact h
  | cons r rows ih => exact ih (resEquiv_stvStep patterns g h r)

theorem pdEquiv_addRow_swap (pd : PeriodData) (k1 k2 : String) (f1 f2 : Bool)
    (m1 m2 : Metrics) :
    PdEquiv (addRowToPeriodData (addRowToPeriodData pd k1 f1 m1) k2 f2 m2)
      (addRowToPeriodData (addRowToPeriodData pd k2 f2 m2) k1 f1 m1) := by
  intro k
  by_cases h12 : k1 = k2
  · subst h12
    by_cases h : k1 = k <;>
      simp [getPD_addRowToPeriodData, h, rowBucket_swap]
  · have h21 : ¬(k2 = k1) := fun hh => h12 hh.symm
    by_cases h1 : k1 = k
    · subst h1
      simp [getPD_addRowToPeriodData, h12, h21]
    · by_cases h2 : k2 = k <;>
        simp [getPD_addRowToPeriodData, h1, h2, h12, h21]

theorem resEquiv_stvStep_swap (patterns : List BrandPattern) (g : Granularity)
    (st : ChannelResult) (r1 r2 : StvRow) :
    ResEquiv (processStvRow patterns g (processStvRow patterns g st r1) r2)
      (processStvRow patterns g (processStvRow patterns g st r2) r1) := by
  unfold processStvRow
  cases hk1 : stvPeriodKey g r1 with
  | none =>
    cases hk2 : stvPeriodKey g r2 with
    | none => exact ResEquiv.refl _
    | some key2 => by_cases h2 : key2 = "" <;> simp [h2] <;> exact ResEquiv.refl _
  | some key1 =>
    cases hk2 : stvPeriodKey g r2 with
    | none => by_cases h1 : key1 = "" <;> simp [h1] <;> exact ResEquiv.refl _
    | some key2 =>
      by_cases h1 : key1 = ""
      · by_cases h2 : key2 = "" <;> simp [h1, h2] <;> exact ResEquiv.refl _
      · by_cases h2 : key2 = ""
        · simp [h1, h2]
          exact ResEquiv.refl _
        · simp only [h1, h2, if_false]
          exact ⟨bumpTotals_swap _ _ _ _ _, pdEquiv_addRow_swap _ _ _ _ _ _ _⟩

theorem resEquiv_stvPerm (patterns : List BrandPattern) (g : Granularity)
    {l1 l2 : List StvRow} (hp : l1.Perm l2) (st : ChannelResult) :
    ResEquiv (l1.foldl (processStvRow patterns g) st)
      (l2.foldl (processStvRow patterns g) st) := by
  induction hp generalizing st with
  | nil => exact ResEquiv.refl _
  | cons x _ ih => exact ih _
  | swap x y l =>
    simp only [List.foldl_cons]
    exact resEquiv_stvFoldl patterns g l (resEquiv_stvStep_swap patterns g st y x)
  | trans _ _ ih1 ih2 => exact (ih1 st).trans (ih2 st)

/-! ### Merging distributes over row processing -/

/-- `main`'s combination step for two already-built channel results:
`mergeTotals(target.totals, source.totals)` and
`mergePeriodData(target.periodData, source.periodData)`. -/
def mergeChannelResults (a b : ChannelResult) : ChannelResult :=
  { totals := mergeTotals a.totals b.totals
    periodData := mergePeriodData a.periodData b.periodData }

theorem keysPD_addRow_nodup (pd : PeriodData) (key : String) (f : Bool) (m : Metrics)
    (h : (keysPD pd).Nodup) :
    (keysPD (addRowToPeriodData pd key f m)).Nodup := by
  unfold addRowToPeriodData
  exact keysPD_setPD_nodup _ _ _ h

theorem keysPD_stvStep_nodup (patterns : List BrandPattern) (g : Granularity)
    (st : ChannelResult) (r : StvRow)
    (h : (keysPD st.periodData).Nodup) :
    (keysPD (processStvRow patterns g st r).periodData).Nodup := by
  unfold processStvRow
  cases stvPeriodKey g r with
  | none => exact h
  | some key =>
    by_cases hk : key = ""
    · simpa [hk] using h
    · simpa [hk] using keysPD_addRow_nodup st.periodData key _ _ h

theorem keysPD_stvFoldl_nodup (patterns : List BrandPattern) (g : Granularity)
    (rows : List StvRow) :
    ∀ st : ChannelResult, (keysPD st.periodData).Nodup →
      (keysPD (rows.foldl (processStvRow patterns g) st).periodData).Nodup := by
  induction rows with
  | nil => exact fun st h => h
  | cons r rows ih =>
    intro st h
    exact ih _ (keysPD_stvStep_nodup patterns g st r h)

theorem pdEquiv_merge_addRow (tpd spd : PeriodData) (hs : (keysPD spd).Nodup)
    (key : String) (f : Bool) (m : Metrics) :
    PdEquiv (mergePeriodData tpd (addRowToPeriodData spd key f m))
      (addRowToPeriodData (mergePeriodData tpd spd) key f m) := by
  intro k
  have hnd : (keysPD (addRowToPeriodData spd key f m)).Nodup :=
    keysPD_addRow_nodup spd key f m hs
  rw [getPD_mergePeriodData (addRowToPeriodData spd key f m) tpd hnd k,
    getPD_addRowToPeriodData spd key f m k,
    getPD_addRowToPeriodData (mergePeriodData tpd spd) key f m k]
  by_cases hk : key = k
  · subst hk
    rw [if_pos rfl, if_pos rfl, getPD_mergePeriodData spd tpd hs key]
    cases hsp : getPD spd key with
    | none =>
      simp only [Option.getD_none]
      rw [mergeBucket_rowBucket, mergeBucket_empty_right]
    | some sb =>
      simp only [Option.getD_some]
      rw [mergeBucket_rowBucket]
  · rw [if_neg hk, if_neg hk, getPD_mergePeriodData spd tpd hs k]

theorem resEquiv_merge_stvStep (patterns : List BrandPattern) (g : Granularity)
    (A B : ChannelResult) (hB : (keysPD B.periodData).Nodup) (r : StvRow) :
    ResEquiv (mergeChannelResults A (processStvRow patterns g B r))
      (processStvRow patterns g (mergeChannelResults A B) r) := by
  unfold processStvRow
  cases stvPeriodKey g r with
  | none => exact ResEquiv.refl _
  | some key =>
    by_cases hk : key = ""
    · simp only [hk, if_pos rfl]
      exact ResEquiv.refl _
    · simp only [hk, if_false]
      constructor
      · exact mergeTotals_bumpTotals _ _ _ _
      · exact pdEquiv_merge_addRow A.periodData B.periodData hB key _ _

theorem resEquiv_merge_stvFoldl (patterns : List BrandPattern) (g : Granularity)
    (rows : List StvRow) :
    ∀ A B : ChannelResult, (keysPD B.periodData).Nodup →
      ResEquiv (mergeChannelResults A (rows.foldl (processStvRow patterns g) B))
        (rows.foldl (processStvRow patterns g) (mergeChannelResults A B)) := by
  induction rows with
  | nil => exact fun A B _ => ResEquiv.refl _
  | cons r rows ih =>
    intro A B hB
    simp only [List.foldl_cons]
    refine (ih A _ (keysPD_stvStep_nodup patterns g B r hB)).trans ?_
    exact resEquiv_stvFoldl patterns g rows (resEquiv_merge_stvStep patterns g A B hB r)

theorem mergeChannelResults_init_right (a : ChannelResult) :
    mergeChannelResults a initSearchResult = a := by
  obtain ⟨t, pd⟩ := a
  simp only [mergeChannelResults, initSearchResult, mergeTotals_init_right]
  rfl

theorem initSearchResult_keys_nodup : (keysPD initSearchResult.periodData).Nodup := by
  simp [initSearchResult, keysPD]

/-- Core of the split/merge law: processing any permutation of `xs ++ ys`
is observationally the same as processing the batches separately and
merging. -/
theorem resEquiv_split_merge (patterns : List BrandPattern) (g : Granularity)
    (zs xs ys : List StvRow) (hperm : zs.Perm (xs ++ ys)) :
    ResEquiv (processSearchTermView patterns g zs)
      (mergeChannelResults (processSearchTermView patterns g xs)
        (processSearchTermView patterns g ys)) := by
  have h1 : ResEquiv (processSearchTermView patterns g zs)
      (processSearchTermView patterns g (xs ++ ys)) :=
    resEquiv_stvPerm patterns g hperm initSearchResult
  have h2 : processSearchTermView patterns g (xs ++ ys) =
      ys.foldl (processStvRow patterns g) (processSearchTermView patterns g xs) := by
    simp [processSearchTermView, List.foldl_append]
  have h3 := resEquiv_merge_stvFoldl patterns g ys
    (processSearchTermView patterns g xs) initSearchResult initSearchResult_keys_nodup
  rw [mergeChannelResults_init_right] at h3
  refine h1.trans ?_
  rw [h2]
  exact (h3.symm : _)

/-! ### Calendar arithmetic -/

theorem isLeap_iff (y : Nat) :
    isLeap y = true ↔ ((y % 4 = 0 ∧ y % 100 ≠ 0) ∨ y % 400 = 0) := by
  unfold isLeap
  simp [Bool.or_eq_true, Bool.and_eq_true, beq_iff_eq, bne_iff_ne]

theorem daysBeforeYear_succ (y : Nat) :
    daysBeforeYear (y + 1) = daysBeforeYear y + daysInYear y := by
  have h4 : (y + 1 + 3) / 4 = (y + 3) / 4 + (if y % 4 = 0 then 1 else 0) := by
    split <;> omega
  have h100 : (y + 1 + 99) / 100 = (y + 99) / 100 + (if y % 100 = 0 then 1 else 0) := by
    split <;> omega
  have h400 : (y + 1 + 399) / 400 = (y + 399) / 400 + (if y % 400 = 0 then 1 else 0) := by
    split <;> omega
  unfold daysBeforeYear daysInYear
  rw [h4, h100, h400]
  by_cases h : isLeap y = true
  · rw [if_pos h]
    rw [isLeap_iff] at h
    rcases h with ⟨h1, h2⟩ | h3
    · have h3 : y % 400 ≠ 0 := by omega
      simp [h1, h2, h3]
      omega
    · have h1 : y % 4 = 0 := by omega
      have h2 : y % 100 = 0 := by omega
      simp [h1, h2, h3]
      omega
  · rw [if_neg h]
    rw [isLeap_iff] at h
    push_neg at h
    by_cases h1 : y % 4 = 0
    · have h2 : y % 100 = 0 := h.1 h1
      have h3 : y % 400 ≠ 0 := h.2
      simp [h1, h2, h3]
      omega
    · have h3 : y % 400 ≠ 0 := h.2
      by_cases h2 : y % 100 = 0
      · exact absurd (by omega : y % 4 = 0) h1
      · simp [h1, h2, h3]
        omega

theorem daysBeforeMonth_succ (y m : Nat) :
    daysBeforeMonth y (m + 2) = daysBeforeMonth y (m + 1) + daysInMonth y (m + 1) := rfl

theorem daysBeforeMonth_twelve (y : Nat) :
    daysBeforeMonth y 12 + daysInMonth y 12 = daysInYear y := by
  have h : daysBeforeMonth y 12 =
      31 + daysInMonth y 2 + 31 + 30 + 31 + 30 + 31 + 31 + 30 + 31 + 30 := rfl
  have h2 : daysInMonth y 12 = 31 := rfl
  have h3 : daysInMonth y 2 = if isLeap y then 29 else 28 := rfl
  rw [h, h2, h3]
  unfold daysInYear
  split <;> omega

/-- Months the loop can visit: month index 1 … 12. -/
def MonthValid (p : Nat × Nat) : Prop := 1 ≤ p.2 ∧ p.2 ≤ 12

theorem monthValid_of_valid (d : Date) (hd : d.Valid) : MonthValid (d.year, d.month) :=
  ⟨hd.1, hd.2.1⟩

theorem toDayNo_last_add_one (p : Nat × Nat) (h : MonthValid p) :
    toDayNo (lastOfMonth p) + 1 = toDayNo (firstOfMonth (nextMonth p)) := by
  obtain ⟨y, m⟩ := p
  obtain ⟨h1, h2⟩ := h
  by_cases h12 : m = 12
  · subst h12
    have hnext : nextMonth (y, 12) = (y + 1, 1) := rfl
    rw [hnext]
    show daysBeforeYear y + daysBeforeMonth y 12 + daysInMonth y 12 + 1 =
      daysBeforeYear (y + 1) + daysBeforeMonth (y + 1) 1 + 1
    rw [daysBeforeYear_succ]
    have h3 := daysBeforeMonth_twelve y
    have h4 : daysBeforeMonth (y + 1) 1 = 0 := rfl
    omega
  · have hnext : nextMonth (y, m) = (y, m + 1) := by simp [nextMonth, h12]
    rw [hnext]
    show daysBeforeYear y + daysBeforeMonth y m + daysInMonth y m + 1 =
      daysBeforeYear y + daysBeforeMonth y (m + 1) + 1
    obtain ⟨m', rfl⟩ : ∃ m', m = m' + 1 := ⟨m - 1, by omega⟩
    rw [daysBeforeMonth_succ]
    omega

theorem first_le_last (p : Nat × Nat) :
    toDayNo (firstOfMonth p) ≤ toDayNo (lastOfMonth p) := by
  have := daysInMonth_ge p.1 p.2
  unfold toDayNo firstOfMonth lastOfMonth
  simp only
  omega

theorem toDayNo_bounds (d : Date) (hd : d.Valid) :
    toDayNo (firstOfMonth (d.year, d.month)) ≤ toDayNo d ∧
      toDayNo d ≤ toDayNo (lastOfMonth (d.year, d.month)) := by
  obtain ⟨h1, h2, h3, h4⟩ := hd
  unfold toDayNo firstOfMonth lastOfMonth
  simp only
  omega

theorem nextMonth_valid (p : Nat × Nat) (h : MonthValid p) : MonthValid (nextMonth p) := by
  unfold nextMonth MonthValid at *
  split <;> simp <;> omega

theorem monthIdx_inj (p q : Nat × Nat) (hp : MonthValid p) (hq : MonthValid q)
    (h : monthIdx p = monthIdx q) : p = q := by
  obtain ⟨p1, p2⟩ := p
  obtain ⟨q1, q2⟩ := q
  unfold monthIdx MonthValid at *
  simp only at *
  have heq : p1 = q1 ∧ p2 = q2 := by omega
  simp [heq.1, heq.2]

theorem eq_nextMonth_of_idx_succ (p q : Nat × Nat) (hp : MonthValid p)
    (hq : MonthValid q) (h : monthIdx q = monthIdx p + 1) : q = nextMonth p :=
  monthIdx_inj q (nextMonth p) hq (nextMonth_valid p hp)
    (by rw [h, monthIdx_nextMonth])

theorem last_lt_first_of_idx_lt :
    ∀ k (p q : Nat × Nat), MonthValid p → MonthValid q →
      monthIdx q = monthIdx p + (k + 1) →
      toDayNo (lastOfMonth p) < toDayNo (firstOfMonth q) := by
  intro k
  induction k with
  | zero =>
    intro p q hp hq h
    have hnm : q = nextMonth p := eq_nextMonth_of_idx_succ p q hp hq h
    rw [hnm, ← toDayNo_last_add_one p hp]
    omega
  | succ k ih =>
    intro p q hp hq h
    have hp2 := nextMonth_valid p hp
    have h2 := ih (nextMonth p) q hp2 hq (by rw [monthIdx_nextMonth]; omega)
    have h3 := toDayNo_last_add_one p hp
    have h4 := first_le_last (nextMonth p)
    omega

theorem toDayNo_le_last_of_idx_le (d : Date) (hd : d.Valid) (p : Nat × Nat)
    (hp : MonthValid p) (h : monthIdx (d.year, d.month) ≤ monthIdx p) :
    toDayNo d ≤ toDayNo (lastOfMonth p) := by
  rcases Nat.eq_or_lt_of_le h with heq | hlt
  · have hdp : (d.year, d.month) = p := monthIdx_inj _ p (monthValid_of_valid d hd) hp heq
    rw [← hdp]
    exact (toDayNo_bounds d hd).2
  · have h2 := last_lt_first_of_idx_lt (monthIdx p - monthIdx (d.year, d.month) - 1)
      (d.year, d.month) p (monthValid_of_valid d hd) hp (by omega)
    have h3 := (toDayNo_bounds d hd).2
    have h4 := first_le_last p
    omega

theorem first_le_toDayNo_of_idx_le (p : Nat × Nat) (hp : MonthValid p) (e : Date)
    (he : e.Valid) (h : monthIdx p ≤ monthIdx (e.year, e.month)) :
    toDayNo (firstOfMonth p) ≤ toDayNo e := by
  rcases Nat.eq_or_lt_of_le h with heq | hlt
  · have hdp : p = (e.year, e.month) := monthIdx_inj p _ hp (monthValid_of_valid e he) heq
    rw [hdp]
    exact (toDayNo_bounds e he).1
  · have h2 := last_lt_first_of_idx_lt (monthIdx (e.year, e.month) - monthIdx p - 1)
      p (e.year, e.month) hp (monthValid_of_valid e he) (by omega)
    have h3 := (toDayNo_bounds e he).1
    have h4 := first_le_last p
    omega

theorem idx_le_of_toDayNo_le (a b : Date) (ha : a.Valid) (hb : b.Valid)
    (h : toDayNo a ≤ toDayNo b) :
    monthIdx (a.year, a.month) ≤ monthIdx (b.year, b.month) := by
  by_contra hc
  push_neg at hc
  have h2 := last_lt_first_of_idx_lt
    (monthIdx (a.year, a.month) - monthIdx (b.year, b.month) - 1)
    (b.year, b.month) (a.year, a.month) (monthValid_of_valid b hb)
    (monthValid_of_valid a ha) (by omega)
  have h3 := (toDayNo_bounds b hb).2
  have h4 := (toDayNo_bounds a ha).1
  omega

theorem toDayNo_maxDate (a b : Date) :
    toDayNo (maxDate a b) = max (toDayNo a) (toDayNo b) := by
  unfold maxDate
  split <;> omega

theorem toDayNo_minDate (a b : Date) :
    toDayNo (minDate a b) = min (toDayNo a) (toDayNo b) := by
  unfold minDate
  split <;> omega

/-! ### Window properties of the two period loops -/

theorem monthLoop_head (s e : Date) (cur : Nat × Nat)
    (h : toDayNo (firstOfMonth cur) ≤ toDayNo e) :
    ∃ rest, monthLoop s e cur =
      (maxDate (firstOfMonth cur) s, minDate (lastOfMonth cur) e) :: rest := by
  rw [monthLoop.eq_def, if_pos h]
  exact ⟨_, rfl⟩

theorem weekLoop_head (e cur : Int) (h : cur ≤ e) :
    ∃ rest, weekLoop e cur = (cur, min (cur + 6) e) :: rest := by
  rw [weekLoop.eq_def, if_pos h]
  exact ⟨_, rfl⟩

theorem weekLoop_spec (e : Int) :
    ∀ k : Nat, ∀ cur : Int, (e + 1 - cur).toNat ≤ k →
      ((∀ n : Int, (cur ≤ n ∧ n ≤ e) ↔ ∃ w ∈ weekLoop e cur, w.1 ≤ n ∧ n ≤ w.2) ∧
        List.Chain' (fun a b : Int × Int => a.2 + 1 = b.1) (weekLoop e cur) ∧
        ∀ w ∈ weekLoop e cur, w.1 ≤ w.2 ∧ w.2 = min (w.1 + 6) e ∧ w.1 % 7 = cur % 7) := by
  intro k
  induction k with
  | zero =>
    intro cur hk
    have hg : ¬(cur ≤ e) := by omega
    rw [weekLoop.eq_def, if_neg hg]
    refine ⟨fun n => ?_, by simp, by simp⟩
    simp only [List.not_mem_nil, false_and, exists_false, iff_false, not_and]
    intro h1 h2
    omega
  | succ k ih =>
    intro cur hk
    by_cases hg : cur ≤ e
    · have IH := ih (cur + 7) (by omega)
      rw [weekLoop.eq_def, if_pos hg]
      refine ⟨fun n => ?_, ?_, ?_⟩
      · constructor
        · intro hn
          by_cases hn6 : n ≤ cur + 6
          · exact ⟨(cur, min (cur + 6) e), by simp, by constructor <;> omega⟩
          · obtain ⟨w, hw1, hw2⟩ := (IH.1 n).mp (by omega)
            exact ⟨w, by simp [hw1], hw2⟩
        · rintro ⟨w, hw1, hw2⟩
          rcases List.mem_cons.mp hw1 with rfl | hw1
          · simp only at hw2
            omega
          · have := (IH.1 n).mpr ⟨w, hw1, hw2⟩
            omega
      · by_cases hg2 : cur + 7 ≤ e
        · obtain ⟨rest, hrest⟩ := weekLoop_head e (cur + 7) hg2
          rw [hrest]
          rw [hrest] at IH
          refine List.chain'_cons.mpr ⟨by omega, IH.2.1⟩
        · rw [weekLoop.eq_def e (cur + 7), if_neg hg2]
          simp
      · intro w hw
        rcases List.mem_cons.mp hw with rfl | hw
        · refine ⟨?_, ?_, ?_⟩ <;> simp <;> omega
        · have h2 := IH.2.2 w hw
          refine ⟨h2.1, h2.2.1, by omega⟩
    · rw [weekLoop.eq_def, if_neg hg]
      refine ⟨fun n => ?_, by simp, by simp⟩
      simp only [List.not_mem_nil, false_and, exists_false, iff_false, not_and]
      intro h1 h2
      omega

theorem monthLoop_spec (s e : Date) (hs : s.Valid) (he : e.Valid)
    (hse : toDayNo s ≤ toDayNo e) :
    ∀ k : Nat, ∀ cur : Nat × Nat,
      monthIdx (e.year, e.month) + 1 - monthIdx cur ≤ k →
      MonthValid cur →
      monthIdx (s.year, s.month) ≤ monthIdx cur →
      monthIdx cur ≤ monthIdx (e.year, e.month) →
      ((∀ n : Nat,
          (max (toDayNo (firstOfMonth cur)) (toDayNo s) ≤ n ∧ n ≤ toDayNo e) ↔
            ∃ w ∈ monthLoop s e cur, toDayNo w.1 ≤ n ∧ n ≤ toDayNo w.2) ∧
        List.Chain' (fun a b : Date × Date => toDayNo a.2 + 1 = toDayNo b.1)
          (monthLoop s e cur) ∧
        ∀ w ∈ monthLoop s e cur, toDayNo w.1 ≤ toDayNo w.2) := by
  intro k
  induction k with
  | zero =>
    intro cur hk hv hsc hce
    exfalso
    omega
  | succ k ih =>
    intro cur hk hv hsc hce
    have hguard : toDayNo (firstOfMonth cur) ≤ toDayNo e :=
      first_le_toDayNo_of_idx_le cur hv e he hce
    have hmax : toDayNo (maxDate (firstOfMonth cur) s)
        = max (toDayNo (firstOfMonth cur)) (toDayNo s) := toDayNo_maxDate _ _
    by_cases hfin : monthIdx cur = monthIdx (e.year, e.month)
    · have hcur : cur = (e.year, e.month) :=
        monthIdx_inj cur _ hv (monthValid_of_valid e he) hfin
      have hele : toDayNo e ≤ toDayNo (lastOfMonth cur) := by
        rw [hcur]
        exact (toDayNo_bounds e he).2
      have hg2 : ¬(toDayNo (firstOfMonth (nextMonth cur)) ≤ toDayNo e) := by
        have h3 := toDayNo_last_add_one cur hv
        omega
      have hmin : toDayNo (minDate (lastOfMonth cur) e) = toDayNo e := by
        rw [toDayNo_minDate]
        omega
      rw [monthLoop.eq_def, if_pos hguard, monthLoop.eq_def, if_neg hg2]
      refine ⟨fun n => ?_, by simp, ?_⟩
      · constructor
        · intro hn
          refine ⟨_, List.mem_singleton_self _, ?_⟩
          show toDayNo (maxDate (firstOfMonth cur) s) ≤ n ∧
            n ≤ toDayNo (minDate (lastOfMonth cur) e)
          rw [hmax, hmin]
          omega
        · rintro ⟨w, hw, hw2⟩
          rcases List.mem_singleton.mp hw with rfl
          revert hw2
          show toDayNo (maxDate (firstOfMonth cur) s) ≤ n ∧
            n ≤ toDayNo (minDate (lastOfMonth cur) e) → _
          rw [hmax, hmin]
          omega
      · intro w hw
        rcases List.mem_singleton.mp hw with rfl
        show toDayNo (maxDate (firstOfMonth cur) s) ≤
          toDayNo (minDate (lastOfMonth cur) e)
        rw [hmax, hmin]
        omega
    · have hlt : monthIdx cur < monthIdx (e.year, e.month) :=
        lt_of_le_of_ne hce hfin
      have hv2 := nextMonth_valid cur hv
      have hidx := monthIdx_nextMonth cur
      have IH := ih (nextMonth cur) (by omega) hv2 (by omega) (by omega)
      have hsLast : toDayNo s ≤ toDayNo (lastOfMonth cur) :=
        toDayNo_le_last_of_idx_le s hs cur hv hsc
      have hlastLt : toDayNo (lastOfMonth cur) < toDayNo (firstOfMonth (e.year, e.month)) :=
        last_lt_first_of_idx_lt (monthIdx (e.year, e.month) - monthIdx cur - 1) cur
          (e.year, e.month) hv (monthValid_of_valid e he) (by omega)
      have hfe := (toDayNo_bounds e he).1
      have hcontig := toDayNo_last_add_one cur hv
      have hfl := first_le_last cur
      have hguard2 : toDayNo (firstOfMonth (nextMonth cur)) ≤ toDayNo e :=
        first_le_toDayNo_of_idx_le (nextMonth cur) hv2 e he (by omega)
      obtain ⟨rest, hrest⟩ := monthLoop_head s e (nextMonth cur) hguard2
      have hmaxr : toDayNo (maxDate (firstOfMonth (nextMonth cur)) s)
          = toDayNo (firstOfMonth (nextMonth cur)) := by
        rw [toDayNo_maxDate]
        omega
      have hmin : toDayNo (minDate (lastOfMonth cur) e) = toDayNo (lastOfMonth cur) := by
        rw [toDayNo_minDate]
        omega
      rw [monthLoop.eq_def, if_pos hguard]
      refine ⟨fun n => ?_, ?_, ?_⟩
      · have hcov := IH.1 n
        constructor
        · intro hn
          by_cases hcase : n ≤ toDayNo (lastOfMonth cur)
          · refine ⟨_, List.mem_cons_self _ _, ?_⟩
            show toDayNo (maxDate (firstOfMonth cur) s) ≤ n ∧
              n ≤ toDayNo (minDate (lastOfMonth cur) e)
            rw [hmax, hmin]
            omega
          · obtain ⟨w, hw, hw2⟩ := hcov.mp (by omega)
            exact ⟨w, List.mem_cons_of_mem _ hw, hw2⟩
        · rintro ⟨w, hw, hw2⟩
          rcases List.mem_cons.mp hw with rfl | hw
          · revert hw2
            show toDayNo (maxDate (firstOfMonth cur) s) ≤ n ∧
              n ≤ toDayNo (minDate (lastOfMonth cur) e) → _
            rw [hmax, hmin]
            omega
          · have h2 := hcov.mpr ⟨w, hw, hw2⟩
            omega
      · rw [hrest]
        refine List.chain'_cons.mpr ⟨?_, ?_⟩
        · show toDayNo (minDate (lastOfMonth cur) e) + 1 =
            toDayNo (maxDate (firstOfMonth (nextMonth cur)) s)
          rw [hmin, hmaxr]
          omega
        · have hch := IH.2.1
          rw [hrest] at hch
          exact hch
      · intro w hw
        rcases List.mem_cons.mp hw with rfl | hw
        · show toDayNo (maxDate (firstOfMonth cur) s) ≤
            toDayNo (minDate (lastOfMonth cur) e)
          rw [hmax, hmin]
          omega
        · exact IH.2.2 w hw

theorem jsDayOfWeek_mondayOnOrBefore (n : Int) : jsDayOfWeek (mondayOnOrBefore n) = 1 := by
  unfold jsDayOfWeek mondayOnOrBefore jsDayOfWeek
  split <;> omega

theorem mondayOnOrBefore_le (n : Int) :
    mondayOnOrBefore n ≤ n ∧ n < mondayOnOrBefore n + 7 := by
  unfold mondayOnOrBefore jsDayOfWeek
  split <;> omega

theorem windows_pairwise_nat (l : List (Date × Date))
    (hc : List.Chain' (fun a b : Date × Date => toDayNo a.2 + 1 = toDayNo b.1) l)
    (hne : ∀ w ∈ l, toDayNo w.1 ≤ toDayNo w.2) :
    List.Pairwise (fun a b : Date × Date => toDayNo a.2 < toDayNo b.1) l := by
  induction l with
  | nil => exact List.Pairwise.nil
  | cons w l ih =>
    cases l with
    | nil => simp
    | cons w2 l2 =>
      have hcc := List.chain'_cons.mp hc
      have ihp := ih hcc.2 fun x hx => hne x (List.mem_cons_of_mem _ hx)
      refine List.pairwise_cons.mpr ⟨?_, ihp⟩
      intro b hb
      rcases List.mem_cons.mp hb with rfl | hb2
      · omega
      · have h1 := hcc.1
        have h2 := hne w2 (by simp)
        have h3 := (List.pairwise_cons.mp ihp).1 b hb2
        omega

theorem windows_pairwise_int (l : List (Int × Int))
    (hc : List.Chain' (fun a b : Int × Int => a.2 + 1 = b.1) l)
    (hne : ∀ w ∈ l, w.1 ≤ w.2) :
    List.Pairwise (fun a b : Int × Int => a.2 < b.1) l := by
  induction l with
  | nil => exact List.Pairwise.nil
  | cons w l ih =>
    cases l with
    | nil => simp
    | cons w2 l2 =>
      have hcc := List.chain'_cons.mp hc
      have ihp := ih hcc.2 fun x hx => hne x (List.mem_cons_of_mem _ hx)
      refine List.pairwise_cons.mpr ⟨?_, ihp⟩
      intro b hb
      rcases List.mem_cons.mp hb with rfl | hb2
      · omega
      · have h1 := hcc.1
        have h2 := hne w2 (by simp)
        have h3 := (List.pairwise_cons.mp ihp).1 b hb2
        omega

/-! ### The blank component is a frame of the merge operations -/

/-- The `blank` component stored under key `k`, if any. -/
def blankOfPD (pd : PeriodData) (k : String) : Option Metrics :=
  match getPD pd k with
  | none => none
  | some b => b.blank

theorem blankOfPD_mergePeriodDataStep (t : PeriodData) (kv : String × PeriodBucket)
    (k : String) : blankOfPD (mergePeriodDataStep t kv) k = blankOfPD t k := by
  unfold blankOfPD
  rw [getPD_mergePeriodDataStep]
  by_cases h : kv.1 = k
  · subst h
    simp only [if_pos rfl]
    cases hg : getPD t kv.1 with
    | none => simp [mergeBucket, emptyPeriodData]
    | some tb => simp [mergeBucket]
  · rw [if_neg h]

theorem blankOfPD_mergePeriodData (s : PeriodData) (t : PeriodData) (k : String) :
    blankOfPD (mergePeriodData t s) k = blankOfPD t k := by
  induction s generalizing t with
  | nil => rfl
  | cons kv s ih =>
    simp only [mergePeriodData, List.foldl_cons] at *
    rw [ih (mergePeriodDataStep t kv), blankOfPD_mergePeriodDataStep]

/-- `main`'s combined view built from the three channel results, in the
order of `main` (Search, then Shopping, then Pmax). -/
def mainCombined (searchData shoppingData pmaxData : ChannelResult) : ChannelResult :=
  { totals := mergeTotals (mergeTotals (mergeTotals
      { branded := emptyMetrics, nonBranded := emptyMetrics, blank := none }
      searchData.totals) shoppingData.totals) pmaxData.totals
    periodData := mergePeriodData (mergePeriodData (mergePeriodData []
      searchData.periodData) shoppingData.periodData) pmaxData.periodData }

/-! ### Claim theorems -/

/-- C1: the claim states that for an empty brand-token list the compiled
matcher matches nothing.  The code violates this: `buildBrandPatterns`
joins zero transformed tokens into the empty regex source, and
`new RegExp('', 'i')` matches every string, so `isBranded("hello")` is
`true` (only the falsy-text guard still yields `false` for `""`). -/
theorem C1_empty_tokens_matcher_matches_everything :
    isBranded (buildBrandPatterns []) (some "hello") = true ∧
    isBranded (buildBrandPatterns []) (some "x") = true ∧
    isBranded (buildBrandPatterns []) (some "") = false ∧
    isBranded (buildBrandPatterns []) none = false := by
  decide

/-- C2: a Performance-Max search-term row whose targeting status
normalises to `EXCLUDED` or `ADDED_EXCLUDED` is discarded entirely: the
row leaves any accumulator state unchanged (no totals slot and no
periodData slot is created or incremented), and removing such a row from
the row stream does not change the result of
`processCampaignSearchTermView` — for both values of the
`PMAX_TREAT_ALL_AS_NON_BRANDED` override (the exclusion check runs before
the override). -/
theorem C2_excluded_pmax_row_discarded (treatAllAsNonBranded : Bool)
    (patterns : List BrandPattern) (g : Granularity) (r : PmaxRow) (raw : String)
    (rows1 rows2 : List PmaxRow)
    (h1 : rawTargetingStatus r.segments = some raw)
    (h2 : jsToUpper raw = "EXCLUDED" ∨ jsToUpper raw = "ADDED_EXCLUDED") :
    (∀ st : ChannelResult,
      processPmaxRow treatAllAsNonBranded patterns g st r = st) ∧
    processCampaignSearchTermView treatAllAsNonBranded patterns g (rows1 ++ r :: rows2) =
      processCampaignSearchTermView treatAllAsNonBranded patterns g (rows1 ++ rows2) := by
  have hex : isExcludedTargetingStatus r.segments = true := by
    unfold isExcludedTargetingStatus
    rw [h1]
    rcases h2 with h | h <;> simp [h]
  have hrow : ∀ st : ChannelResult,
      processPmaxRow treatAllAsNonBranded patterns g st r = st := by
    intro st
    unfold processPmaxRow
    rw [if_pos hex]
  refine ⟨hrow, ?_⟩
  unfold processCampaignSearchTermView
  rw [List.foldl_append, List.foldl_append, List.foldl_cons, hrow]

theorem C2_excluded_pmax_row_discarded_witness :
    processPmaxRow true (buildBrandPatterns ["foodsisters"]) Granularity.month
      initSearchResult
      ⟨some "foodsisters tee",
        some ⟨some "ADDED_EXCLUDED", none, none, some "2024-01"⟩,
        ⟨.num 5, .num 1, .num 1000000, .num 0, .num 0⟩⟩ =
      initSearchResult :=
  (C2_excluded_pmax_row_discarded true (buildBrandPatterns ["foodsisters"])
    Granularity.month
    ⟨some "foodsisters tee",
      some ⟨some "ADDED_EXCLUDED", none, none, some "2024-01"⟩,
      ⟨.num 5, .num 1, .num 1000000, .num 0, .num 0⟩⟩
    "ADDED_EXCLUDED" [] [] rfl (Or.inr (by decide))).1 initSearchResult

/-- C6: `mergePeriodData(target, source)` never drops a period: every key
of either operand is a key of the result, and a key present only in the
source gets a zero-initialised bucket (`emptyPeriodData()`) in the target
into which the source bucket's metrics are then accumulated. -/
theorem C6_mergePeriodData_never_drops (t s : PeriodData) (k : String) :
    ((k ∈ keysPD t ∨ k ∈ keysPD s) → k ∈ keysPD (mergePeriodData t s)) ∧
    ((keysPD s).Nodup → getPD t k = none → ∀ sb, getPD s k = some sb →
      getPD (mergePeriodData t s) k = some (mergeBucket emptyPeriodData sb)) := by
  constructor
  · rintro (h | h)
    · exact mem_keysPD_mergePeriodData_left s t k h
    · exact mem_keysPD_mergePeriodData_right s t k h
  · intro hnd ht sb hs
    rw [getPD_mergePeriodData s t hnd k, hs, ht]
    rfl

theorem C6_mergePeriodData_never_drops_witness :
    ("2024-02" ∈ keysPD (mergePeriodData [("2024-01", emptyPeriodData)]
      [("2024-02", emptyPeriodDataWithBlank)]) ∧
    getPD (mergePeriodData [("2024-01", emptyPeriodData)]
      [("2024-02", emptyPeriodDataWithBlank)]) "2024-02" =
        some (mergeBucket emptyPeriodData emptyPeriodDataWithBlank)) :=
  ⟨(C6_mergePeriodData_never_drops [("2024-01", emptyPeriodData)]
      [("2024-02", emptyPeriodDataWithBlank)] "2024-02").1 (Or.inr (by decide)),
    (C6_mergePeriodData_never_drops [("2024-01", emptyPeriodData)]
      [("2024-02", emptyPeriodDataWithBlank)] "2024-02").2 (by decide) (by decide) _ rfl⟩

/-- C8: the derived ratios are total, with the zero-denominator guard of
`buildRawTabRows` / `buildChartDataRows`: CPA is `cost / conversions` when
`conversions > 0` and `0` when `conversions = 0`; ROAS is
`conversionsValue / cost` when `cost > 0` and `0` when `cost = 0`. -/
theorem C8_cpa_roas_total (m : Metrics) :
    (m.conversions > 0 → cpaOf m = m.cost / m.conversions) ∧
    (m.conversions = 0 → cpaOf m = 0) ∧
    (m.cost > 0 → roasOf m = m.conversionsValue / m.cost) ∧
    (m.cost = 0 → roasOf m = 0) := by
  unfold cpaOf roasOf
  refine ⟨fun h => if_pos h, fun h => ?_, fun h => if_pos h, fun h => ?_⟩
  · simp [h]
  · simp [h]

theorem C8_cpa_roas_total_witness :
    cpaOf ⟨0, 0, 40, 4, 0⟩ = 10 ∧
    cpaOf ⟨0, 0, 40, 0, 0⟩ = 0 ∧
    roasOf ⟨0, 0, 0, 0, 7⟩ = 0 := by
  refine ⟨?_, ?_, ?_⟩
  · rw [(C8_cpa_roas_total ⟨0, 0, 40, 4, 0⟩).1 (by norm_num)]
    norm_num
  · exact (C8_cpa_roas_total ⟨0, 0, 40, 0, 0⟩).2.1 rfl
  · exact (C8_cpa_roas_total ⟨0, 0, 0, 0, 7⟩).2.2.2 rfl

/-- C10: the merge operations read and write only the `branded` and
`nonBranded` components.  `mergeTotals` leaves the target's `blank`
unchanged and ignores the source's; `mergePeriodData` never changes the
`blank` component stored under any key (a source bucket's `blank` is
never added, and a bucket created for a source-only key has no `blank`);
consequently the combined view built in `main` — which merges only the
three search-term channel results, never the category-insight result —
contains no `blank` data for any channel inputs whatsoever. -/
theorem C10_merge_ignores_blank :
    (∀ a b : Totals, (mergeTotals a b).blank = a.blank) ∧
    (∀ t s : PeriodData, ∀ k, blankOfPD (mergePeriodData t s) k = blankOfPD t k) ∧
    (∀ searchData shoppingData pmaxData : ChannelResult,
      (mainCombined searchData shoppingData pmaxData).totals.blank = none ∧
      ∀ k, blankOfPD (mainCombined searchData shoppingData pmaxData).periodData k = none) := by
  refine ⟨fun a b => rfl, fun t s k => blankOfPD_mergePeriodData s t k, ?_⟩
  intro sR shR pR
  refine ⟨rfl, fun k => ?_⟩
  unfold mainCombined
  simp only
  rw [blankOfPD_mergePeriodData, blankOfPD_mergePeriodData, blankOfPD_mergePeriodData]
  rfl

/-- C4 counterexample: for the sheet URL
`https://docs.google.com/spreadsheets/x` the identifier fails to parse
(`getSheetId` throws), yet the trace of `main` contains the
`search_term_view` report query — so "no report query is executed" is
false on the code: `main` fetches first and parses the sheet id only
afterwards (line order of `main`). -/
theorem C4_counterexample_fetch_before_parse :
    getSheetId "https://docs.google.com/spreadsheets/x" = none ∧
    (mainEvents "https://docs.google.com/spreadsheets/x" true).2 = true ∧
    MainEvent.reportQuery "search_term_view:SEARCH" ∈
      (mainEvents "https://docs.google.com/spreadsheets/x" true).1 := by
  decide

/-- C4 (amended): an unparseable sheet identifier is still fatal — the
run ends in the catch-and-rethrow path, no spreadsheet is opened and
nothing is written — but the failure happens only after every report
query has been issued, because `main` calls `getSheetId(SHEET_URL)` after
the data fetches, not before. -/
theorem C4_config_error_fatal_after_fetches (url : String) (includeCats : Bool)
    (herr : getSheetId url = none) :
    (mainEvents url includeCats).2 = true ∧
    MainEvent.reportQuery "search_term_view:SEARCH" ∈ (mainEvents url includeCats).1 ∧
    MainEvent.reportQuery "search_term_view:SHOPPING" ∈ (mainEvents url includeCats).1 ∧
    MainEvent.reportQuery "campaign_search_term_view:PERFORMANCE_MAX" ∈
      (mainEvents url includeCats).1 ∧
    (∀ ev ∈ (mainEvents url includeCats).1, ∀ sheetId, ev ≠ MainEvent.openSpreadsheet sheetId) ∧
    (∀ ev ∈ (mainEvents url includeCats).1, ev ≠ MainEvent.writeOutput) := by
  unfold mainEvents
  rw [herr]
  cases includeCats <;> simp

theorem C4_config_error_fatal_after_fetches_witness :
    (mainEvents "https://docs.google.com/spreadsheets/x" false).2 = true ∧
    MainEvent.reportQuery "search_term_view:SEARCH" ∈
      (mainEvents "https://docs.google.com/spreadsheets/x" false).1 ∧
    MainEvent.reportQuery "search_term_view:SHOPPING" ∈
      (mainEvents "https://docs.google.com/spreadsheets/x" false).1 ∧
    MainEvent.reportQuery "campaign_search_term_view:PERFORMANCE_MAX" ∈
      (mainEvents "https://docs.google.com/spreadsheets/x" false).1 ∧
    (∀ ev ∈ (mainEvents "https://docs.google.com/spreadsheets/x" false).1,
      ∀ sheetId, ev ≠ MainEvent.openSpreadsheet sheetId) ∧
    (∀ ev ∈ (mainEvents "https://docs.google.com/spreadsheets/x" false).1,
      ev ≠ MainEvent.writeOutput) :=
  C4_config_error_fatal_after_fetches "https://docs.google.com/spreadsheets/x" false
    (by decide)

/-- C5: classifying and aggregating a row set in one batch gives the same
totals and the same periodData map as splitting it into two batches,
aggregating each and merging with `mergeTotals` / `mergePeriodData`; and
this holds for every order of the full row set (any permutation of the
concatenated batches), so row processing order never changes the
aggregate. -/
theorem C5_split_merge_agrees (patterns : List BrandPattern) (g : Granularity)
    (zs xs ys : List StvRow) (hperm : zs.Perm (xs ++ ys)) :
    (processSearchTermView patterns g zs).totals =
      mergeTotals (processSearchTermView patterns g xs).totals
        (processSearchTermView patterns g ys).totals ∧
    ∀ k, getPD (processSearchTermView patterns g zs).periodData k =
      getPD (mergePeriodData (processSearchTermView patterns g xs).periodData
        (processSearchTermView patterns g ys).periodData) k := by
  have h := resEquiv_split_merge patterns g zs xs ys hperm
  exact ⟨h.1, h.2⟩

theorem C5_split_merge_agrees_witness :
    (processSearchTermView (buildBrandPatterns ["foodsisters"]) Granularity.month
        [⟨some "red tee", none, some "2024-01", ⟨.num 200, .num 20, .num 10000000, .num 2, .num 40⟩⟩,
         ⟨some "foodsisters tee", none, some "2024-01", ⟨.num 100, .num 10, .num 5000000, .num 1, .num 20⟩⟩]).totals =
      mergeTotals
        (processSearchTermView (buildBrandPatterns ["foodsisters"]) Granularity.month
          [⟨some "foodsisters tee", none, some "2024-01", ⟨.num 100, .num 10, .num 5000000, .num 1, .num 20⟩⟩]).totals
        (processSearchTermView (buildBrandPatterns ["foodsisters"]) Granularity.month
          [⟨some "red tee", none, some "2024-01", ⟨.num 200, .num 20, .num 10000000, .num 2, .num 40⟩⟩]).totals ∧
    ∀ k, getPD (processSearchTermView (buildBrandPatterns ["foodsisters"]) Granularity.month
        [⟨some "red tee", none, some "2024-01", ⟨.num 200, .num 20, .num 10000000, .num 2, .num 40⟩⟩,
         ⟨some "foodsisters tee", none, some "2024-01", ⟨.num 100, .num 10, .num 5000000, .num 1, .num 20⟩⟩]).periodData k =
      getPD (mergePeriodData
        (processSearchTermView (buildBrandPatterns ["foodsisters"]) Granularity.month
          [⟨some "foodsisters tee", none, some "2024-01", ⟨.num 100, .num 10, .num 5000000, .num 1, .num 20⟩⟩]).periodData
        (processSearchTermView (buildBrandPatterns ["foodsisters"]) Granularity.month
          [⟨some "red tee", none, some "2024-01", ⟨.num 200, .num 20, .num 10000000, .num 2, .num 40⟩⟩]).periodData) k :=
  C5_split_merge_agrees (buildBrandPatterns ["foodsisters"]) Granularity.month
    [⟨some "red tee", none, some "2024-01", ⟨.num 200, .num 20, .num 10000000, .num 2, .num 40⟩⟩,
     ⟨some "foodsisters tee", none, some "2024-01", ⟨.num 100, .num 10, .num 5000000, .num 1, .num 20⟩⟩]
    [⟨some "foodsisters tee", none, some "2024-01", ⟨.num 100, .num 10, .num 5000000, .num 1, .num 20⟩⟩]
    [⟨some "red tee", none, some "2024-01", ⟨.num 200, .num 20, .num 10000000, .num 2, .num 40⟩⟩]
    (by decide)

/-- C9 counterexample: the coercion `Number(x) || 0` does not clamp
negative numbers, so a raw impressions value of `-5` yields a negative
metric, refuting "each metric field is coerced to a non-negative
number". -/
theorem C9_counterexample_negative_passthrough :
    (rowMetricsOf ⟨.num (-5), .num 0, .num 0, .num 0, .num 0⟩).impressions = -5 ∧
    ((-5 : ℚ) < 0) := by
  constructor
  · rfl
  · norm_num

/-- C9 (amended): row-ingestion coercion is total — a missing or
non-numeric field is silently replaced by `0`, never an exception — and
the cost field is `cost_micros / 1,000,000` at the ingestion boundary;
the outputs are non-negative whenever every numeric raw input is
non-negative (the code does not clamp: a negative numeric input passes
through unchanged). -/
theorem C9_row_coercion_total (m : RawMetrics)
    (h1 : ∀ q, m.impressions = RawField.num q → 0 ≤ q)
    (h2 : ∀ q, m.clicks = RawField.num q → 0 ≤ q)
    (h3 : ∀ q, m.costMicros = RawField.num q → 0 ≤ q)
    (h4 : ∀ q, m.conversions = RawField.num q → 0 ≤ q)
    (h5 : ∀ q, m.conversionsValue = RawField.num q → 0 ≤ q) :
    0 ≤ (rowMetricsOf m).impressions ∧ 0 ≤ (rowMetricsOf m).clicks ∧
    0 ≤ (rowMetricsOf m).cost ∧ 0 ≤ (rowMetricsOf m).conversions ∧
    0 ≤ (rowMetricsOf m).conversionsValue ∧
    (rowMetricsOf m).cost = jsNumberOr0 m.costMicros / 1000000 ∧
    jsNumberOr0 RawField.missing = 0 ∧ jsNumberOr0 RawField.nonNumeric = 0 := by
  have key : ∀ rf : RawField, (∀ q, rf = RawField.num q → 0 ≤ q) → 0 ≤ jsNumberOr0 rf := by
    intro rf h
    cases rf with
    | missing => simp [jsNumberOr0]
    | nonNumeric => simp [jsNumberOr0]
    | num q => exact h q rfl
  refine ⟨key _ h1, key _ h2, ?_, key _ h4, key _ h5, rfl, rfl, rfl⟩
  exact div_nonneg (key _ h3) (by norm_num)

theorem C9_row_coercion_total_witness :
    0 ≤ (rowMetricsOf ⟨.num 100, .missing, .num 5000000, .nonNumeric, .num 20⟩).impressions ∧
    0 ≤ (rowMetricsOf ⟨.num 100, .missing, .num 5000000, .nonNumeric, .num 20⟩).clicks ∧
    0 ≤ (rowMetricsOf ⟨.num 100, .missing, .num 5000000, .nonNumeric, .num 20⟩).cost ∧
    0 ≤ (rowMetricsOf ⟨.num 100, .missing, .num 5000000, .nonNumeric, .num 20⟩).conversions ∧
    0 ≤ (rowMetricsOf ⟨.num 100, .missing, .num 5000000, .nonNumeric, .num 20⟩).conversionsValue ∧
    (rowMetricsOf ⟨.num 100, .missing, .num 5000000, .nonNumeric, .num 20⟩).cost =
      jsNumberOr0 (RawField.num 5000000) / 1000000 ∧
    jsNumberOr0 RawField.missing = 0 ∧ jsNumberOr0 RawField.nonNumeric = 0 :=
  C9_row_coercion_total ⟨.num 100, .missing, .num 5000000, .nonNumeric, .num 20⟩
    (fun q hq => by injection hq with h; rw [← h]; norm_num)
    (fun q hq => by cases hq)
    (fun q hq => by injection hq with h; rw [← h]; norm_num)
    (fun q hq => by cases hq)
    (fun q hq => by injection hq with h; rw [← h]; norm_num)

/-- C7: a category-insight row is classified Blank exactly when its label
is absent or empty after trimming, else Branded exactly when the matcher
matches the label; the metric vector routed into both the totals and the
period data carries cost `0`, and the row — blank-classified rows
included — does appear in both the totals and the `periodData` bucket of
its period, whose cost components stay unchanged. -/
theorem C7_category_classifier (patterns : List BrandPattern) (st : ChannelResult)
    (periodKey : String) (r : InsightRow) :
    (categoryOfLabel patterns (r.categoryLabel.getD "") = Category.blank ↔
      jsTrim (r.categoryLabel.getD "") = "") ∧
    (jsTrim (r.categoryLabel.getD "") ≠ "" →
      (categoryOfLabel patterns (r.categoryLabel.getD "") = Category.branded ↔
        isBranded patterns (some (r.categoryLabel.getD "")) = true)) ∧
    (insightMetricsOf r.metrics).cost = 0 ∧
    (processInsightRow patterns periodKey st r).totals =
      bumpTotalsCategory st.totals (categoryOfLabel patterns (r.categoryLabel.getD ""))
        (insightMetricsOf r.metrics) ∧
    getPD (processInsightRow patterns periodKey st r).periodData periodKey =
      some (bumpBucketCategory
        ((getPD st.periodData periodKey).getD emptyPeriodDataWithBlank)
        (categoryOfLabel patterns (r.categoryLabel.getD ""))
        (insightMetricsOf r.metrics)) ∧
    (∀ b2, getPD (processInsightRow patterns periodKey st r).periodData periodKey =
        some b2 →
      b2.branded.cost =
        ((getPD st.periodData periodKey).getD emptyPeriodDataWithBlank).branded.cost ∧
      b2.nonBranded.cost =
        ((getPD st.periodData periodKey).getD emptyPeriodDataWithBlank).nonBranded.cost ∧
      (b2.blank.getD emptyMetrics).cost =
        (((getPD st.periodData periodKey).getD
          emptyPeriodDataWithBlank).blank.getD emptyMetrics).cost) := by
  have hchar : getPD (processInsightRow patterns periodKey st r).periodData periodKey =
      some (bumpBucketCategory
        ((getPD st.periodData periodKey).getD emptyPeriodDataWithBlank)
        (categoryOfLabel patterns (r.categoryLabel.getD ""))
        (insightMetricsOf r.metrics)) := by
    show getPD (addRowToPeriodDataWithBlank st.periodData periodKey _ _) periodKey = _
    rw [getPD_addRowToPeriodDataWithBlank, if_pos rfl]
  refine ⟨?_, ?_, rfl, rfl, hchar, ?_⟩
  · unfold categoryOfLabel
    by_cases hc : r.categoryLabel.getD "" = "" ∨ jsTrim (r.categoryLabel.getD "") = ""
    · rw [if_pos hc]
      constructor
      · intro _
        rcases hc with hc | hc
        · rw [hc]
          rfl
        · exact hc
      · intro _
        rfl
    · rw [if_neg hc]
      push_neg at hc
      constructor
      · intro h
        split_ifs at h <;> simp at h
      · intro h
        exact absurd h hc.2
  · intro ht
    have hc : ¬(r.categoryLabel.getD "" = "" ∨ jsTrim (r.categoryLabel.getD "") = "") := by
      push_neg
      refine ⟨?_, ht⟩
      intro hL
      exact ht (by rw [hL]; rfl)
    unfold categoryOfLabel
    rw [if_neg hc]
    cases hb : isBranded patterns (some (r.categoryLabel.getD "")) <;> simp [hb]
  · intro b2 hb2
    rw [hchar] at hb2
    have hb2e : b2 = bumpBucketCategory
        ((getPD st.periodData periodKey).getD emptyPeriodDataWithBlank)
        (categoryOfLabel patterns (r.categoryLabel.getD ""))
        (insightMetricsOf r.metrics) := by
      injection hb2.symm
    subst hb2e
    cases categoryOfLabel patterns (r.categoryLabel.getD "") <;>
      simp [bumpBucketCategory, bumpMetrics, insightMetricsOf]

theorem C7_category_classifier_witness :
    categoryOfLabel (buildBrandPatterns ["foodsisters", "foodsister"])
      "foodsisters gift" = Category.branded ∧
    (insightMetricsOf ⟨.num 10, .num 2, .num 1, .num 5⟩).cost = 0 ∧
    getPD (processInsightRow (buildBrandPatterns ["foodsisters", "foodsister"])
        "2024-01" initInsightResult
        ⟨some "foodsisters gift", ⟨.num 10, .num 2, .num 1, .num 5⟩⟩).periodData
      "2024-01" =
      some (bumpBucketCategory emptyPeriodDataWithBlank
        (categoryOfLabel (buildBrandPatterns ["foodsisters", "foodsister"])
          "foodsisters gift")
        (insightMetricsOf ⟨.num 10, .num 2, .num 1, .num 5⟩)) := by
  have h := C7_category_classifier (buildBrandPatterns ["foodsisters", "foodsister"])
    initInsightResult "2024-01"
    ⟨some "foodsisters gift", ⟨.num 10, .num 2, .num 1, .num 5⟩⟩
  exact ⟨(h.2.1 (by decide)).mpr (by decide), h.2.2.1, h.2.2.2.2.1⟩

/-- C3 counterexample: for the weekly granularity and the range
2024-01-10 (a Wednesday) … 2024-01-20, `getPeriodRanges` anchors the
first window at Monday 2024-01-08, two days before the range start, so
the produced windows cover day 739259 < 739261 and do not exactly cover
`[startDate, endDate]` as the claim states. -/
theorem C3_counterexample_weekly_overcover :
    toDayNo ⟨2024, 1, 10⟩ = 739261 ∧
    toDayNo ⟨2024, 1, 20⟩ = 739271 ∧
    toDayNo ⟨2024, 1, 8⟩ = 739259 ∧
    getPeriodRangesWeek 739261 739271 = [(739259, 739265), (739266, 739271)] ∧
    ¬((739261 : ℤ) ≤ 739259) := by
  refine ⟨by decide, by decide, by decide, ?_, by decide⟩
  rw [getPeriodRangesWeek]
  norm_num [mondayOnOrBefore, jsDayOfWeek]
  rw [weekLoop.eq_def]
  norm_num
  rw [weekLoop.eq_def]
  norm_num
  rw [weekLoop.eq_def]
  norm_num

/-- C3 (amended): for every valid range `startDate ≤ endDate` the monthly
windows are contiguous, non-overlapping, non-empty and exactly cover
`[startDate, endDate]`; the weekly windows are contiguous,
non-overlapping and non-empty, every window starts on a Monday and ends
`min(start + 6, endDate)` (so it spans at most 7 days and the final
window is clipped to `endDate`), but they exactly cover
`[mondayOnOrBefore startDate, endDate]` — a superset of the requested
range whenever `startDate` is not a Monday. -/
theorem C3_getPeriodRanges_windows :
    (∀ s e : Date, s.Valid → e.Valid → toDayNo s ≤ toDayNo e →
      ((∀ n : Nat, (toDayNo s ≤ n ∧ n ≤ toDayNo e) ↔
          ∃ w ∈ getPeriodRangesMonth s e, toDayNo w.1 ≤ n ∧ n ≤ toDayNo w.2) ∧
        List.Chain' (fun a b : Date × Date => toDayNo a.2 + 1 = toDayNo b.1)
          (getPeriodRangesMonth s e) ∧
        List.Pairwise (fun a b : Date × Date => toDayNo a.2 < toDayNo b.1)
          (getPeriodRangesMonth s e) ∧
        ∀ w ∈ getPeriodRangesMonth s e, toDayNo w.1 ≤ toDayNo w.2)) ∧
    (∀ startN endN : Int, startN ≤ endN →
      (mondayOnOrBefore startN ≤ startN ∧
        startN < mondayOnOrBefore startN + 7 ∧
        jsDayOfWeek (mondayOnOrBefore startN) = 1 ∧
        (∀ n : Int, (mondayOnOrBefore startN ≤ n ∧ n ≤ endN) ↔
          ∃ w ∈ getPeriodRangesWeek startN endN, w.1 ≤ n ∧ n ≤ w.2) ∧
        List.Chain' (fun a b : Int × Int => a.2 + 1 = b.1)
          (getPeriodRangesWeek startN endN) ∧
        List.Pairwise (fun a b : Int × Int => a.2 < b.1)
          (getPeriodRangesWeek startN endN) ∧
        ∀ w ∈ getPeriodRangesWeek startN endN,
          w.1 ≤ w.2 ∧ w.2 = min (w.1 + 6) endN ∧ jsDayOfWeek w.1 = 1)) := by
  constructor
  · intro s e hs he hse
    have hidx0 : monthIdx (s.year, s.month) ≤ monthIdx (e.year, e.month) :=
      idx_le_of_toDayNo_le s e hs he hse
    have hspec := monthLoop_spec s e hs he hse
      (monthIdx (e.year, e.month) + 1 - monthIdx (s.year, s.month))
      (s.year, s.month) (le_refl _) (monthValid_of_valid s hs) (le_refl _) hidx0
    have hfs := (toDayNo_bounds s hs).1
    simp only [getPeriodRangesMonth]
    refine ⟨fun n => ?_, hspec.2.1,
      windows_pairwise_nat _ hspec.2.1 hspec.2.2, hspec.2.2⟩
    have h := hspec.1 n
    rwa [max_eq_right hfs] at h
  · intro sN eN hle
    have hm := mondayOnOrBefore_le sN
    have hdow := jsDayOfWeek_mondayOnOrBefore sN
    have hspec := weekLoop_spec eN ((eN + 1 - mondayOnOrBefore sN).toNat)
      (mondayOnOrBefore sN) (le_refl _)
    simp only [getPeriodRangesWeek]
    refine ⟨hm.1, hm.2, hdow, hspec.1, hspec.2.1,
      windows_pairwise_int _ hspec.2.1 (fun w hw => (hspec.2.2 w hw).1), ?_⟩
    intro w hw
    have h := hspec.2.2 w hw
    refine ⟨h.1, h.2.1, ?_⟩
    have hmod := h.2.2
    unfold jsDayOfWeek at hdow ⊢
    omega

theorem C3_getPeriodRanges_windows_witness :
    ((toDayNo ⟨2024, 1, 15⟩ ≤ toDayNo ⟨2024, 2, 5⟩ ∧
        toDayNo ⟨2024, 2, 5⟩ ≤ toDayNo ⟨2024, 3, 10⟩) ↔
      ∃ w ∈ getPeriodRangesMonth ⟨2024, 1, 15⟩ ⟨2024, 3, 10⟩,
        toDayNo w.1 ≤ toDayNo ⟨2024, 2, 5⟩ ∧ toDayNo ⟨2024, 2, 5⟩ ≤ toDayNo w.2) ∧
    jsDayOfWeek (mondayOnOrBefore 739261) = 1 ∧
    ∀ w ∈ getPeriodRangesWeek 739261 739271,
      w.1 ≤ w.2 ∧ w.2 = min (w.1 + 6) 739271 ∧ jsDayOfWeek w.1 = 1 :=
  ⟨(C3_getPeriodRanges_windows.1 ⟨2024, 1, 15⟩ ⟨2024, 3, 10⟩ (by decide) (by decide)
      (by decide)).1 (toDayNo ⟨2024, 2, 5⟩),
    (C3_getPeriodRanges_windows.2 739261 739271 (by decide)).2.2.1,
    (C3_getPeriodRanges_windows.2 739261 739271 (by decide)).2.2.2.2.2.2⟩

end BrandAnalysis
